import Mathlib

/-!
Verification development for the debate orchestration core:
`services/prompt_parser.py`, `services/agent_orchestrator.py` and the
`/api/debates/{id}/start` endpoint of `app.py`, shallowly embedded in Lean.
-/

namespace Debate


/-- Parsed YAML value as produced by yaml.safe_load: scalars, sequences and
string-keyed mappings. -/
inductive Yval where
  | s (v : String)
  | i (v : Int)
  | b (v : Bool)
  | null
  | arr (vs : List Yval)
  | map (kvs : List (String × Yval))

/-- Python truthiness of a value. -/
def pyTruthy : Yval → Bool
  | .s v => !(v == "")
  | .i v => !(v == 0)
  | .b v => v
  | .null => false
  | .arr vs => !vs.isEmpty
  | .map kvs => !kvs.isEmpty

/-- Exact prefix test on character lists. -/
def startsWithExact : List Char → List Char → Bool
  | [], _ => true
  | _ :: _, [] => false
  | p :: ps, c :: cs => p == c && startsWithExact ps cs

/-- Substring test on character lists, as Python `needle in haystack`. -/
def containsSub (pat : List Char) : List Char → Bool
  | [] => pat.isEmpty
  | c :: cs => startsWithExact pat (c :: cs) || containsSub pat cs

/-- Substring test on strings. -/
def strContains (haystack needle : String) : Bool :=
  containsSub needle.data haystack.data

/-- Python `field in value` for a string field: key membership for mappings,
substring test for strings, element equality for lists; other types raise
TypeError. -/
def pyContains (field : String) : Yval → Except String Bool
  | .map kvs => .ok (kvs.lookup field).isSome
  | .s t => .ok (strContains t field)
  | .arr vs => .ok (vs.any (fun v => match v with | .s t => field == t | _ => false))
  | .i _ => .error "argument of type \'int\' is not iterable"
  | .b _ => .error "argument of type \'bool\' is not iterable"
  | .null => .error "argument of type \'NoneType\' is not iterable"

/-- Python `value[field]` for a string field. -/
def pyIndex (field : String) : Yval → Except String Yval
  | .map kvs =>
      match kvs.lookup field with
      | some v => .ok v
      | none => .error ("KeyError: " ++ field)
  | .s _ => .error "string indices must be integers"
  | .arr _ => .error "list indices must be integers or slices, not str"
  | .i _ => .error "\'int\' object is not subscriptable"
  | .b _ => .error "\'bool\' object is not subscriptable"
  | .null => .error "\'NoneType\' object is not subscriptable"

/-- Python dict assignment `d[k] = v`: replace the binding in place when the key
exists, else append (dicts keep insertion order). -/
def mapSet : List (String × Yval) → String → Yval → List (String × Yval)
  | [], k, v => [(k, v)]
  | (k0, v0) :: rest, k, v =>
      if k0 == k then (k, v) :: rest else (k0, v0) :: mapSet rest k v

def charLowerEq (a b : Char) : Bool := a.toLower == b.toLower

/-- Lower-casing, character by character. -/
def strToLower (s : String) : String := String.mk (s.data.map Char.toLower)

/-- Python str.strip(): drop leading and trailing whitespace. -/
def strStrip (s : String) : String :=
  String.mk (((s.data.dropWhile Char.isWhitespace).reverse.dropWhile Char.isWhitespace).reverse)

/-- Case-insensitive prefix test on character lists. -/
def startsWithCaseless : List Char → List Char → Bool
  | [], _ => true
  | _ :: _, [] => false
  | p :: ps, c :: cs => charLowerEq p c && startsWithCaseless ps cs

/-- Index of the first case-insensitive occurrence of `pat`. -/
def findCaseless (pat : List Char) : List Char → Option Nat
  | [] => if pat.isEmpty then some 0 else none
  | c :: cs =>
      if startsWithCaseless pat (c :: cs) then some 0
      else (findCaseless pat cs).map (· + 1)

/-- First `<tag>...</tag>` occurrence, matched case-insensitively and
non-greedily across newlines, with the content stripped, exactly as the
re.search in `_parse_xml_tags` behaves. -/
def extractTag (tag : String) (text : String) : Option String :=
  let cs := text.data
  let openTag := '<' :: (tag.data ++ ['>'])
  let closeTag := '<' :: '/' :: (tag.data ++ ['>'])
  match findCaseless openTag cs with
  | none => none
  | some p =>
      let afterOpen := cs.drop (p + openTag.length)
      match findCaseless closeTag afterOpen with
      | none => none
      | some q => some (strStrip (String.mk (afterOpen.take q)))

def tagNames : List String :=
  ["persona", "context", "behavior", "constraints", "examples", "format"]

/-- Model of `_parse_xml_tags`: extract the six known tags that occur, then
always keep the full text. -/
def parseXmlTags (text : String) : List (String × Yval) :=
  (tagNames.filterMap (fun tag => (extractTag tag text).map (fun c => (tag, Yval.s c))))
    ++ [("full_text", Yval.s text)]

def requiredFields : List String := ["name", "role", "system_prompt"]

/-- The required-field loop of `parse`: the first missing field raises. -/
def checkRequired (agentData : Yval) : List String → Except String Unit
  | [] => .ok ()
  | f :: fs =>
      match pyContains f agentData with
      | .error e => .error e
      | .ok true => checkRequired agentData fs
      | .ok false => .error ("Missing required field: agent." ++ f)

/-- Body of `PromptParser.parse` inside the try block, before the except
clauses re-wrap the message. -/
def parseBody (v : Yval) : Except String Yval :=
  match v with
  | .map kvs =>
      match kvs.lookup "agent" with
      | none => .error "Missing required \'agent\' section"
      | some agentData =>
          match checkRequired agentData requiredFields with
          | .error e => .error e
          | .ok _ =>
              match agentData with
              | .map akvs =>
                  match akvs.lookup "system_prompt" with
                  | none => .error "KeyError: system_prompt"
                  | some sp =>
                      if pyTruthy sp then
                        match sp with
                        | .s text =>
                            .ok (.map (mapSet kvs "agent"
                              (.map (mapSet akvs "system_prompt_parsed"
                                (.map (parseXmlTags text))))))
                        | _ => .error "expected string or bytes-like object"
                      else .ok (.map kvs)
              | .s _ => .error "string indices must be integers"
              | .arr _ => .error "list indices must be integers or slices, not str"
              | .i _ => .error "\'int\' object is not subscriptable"
              | .b _ => .error "\'bool\' object is not subscriptable"
              | .null => .error "\'NoneType\' object is not subscriptable"
  | _ => .error "Prompt must be a YAML dictionary"

/-- Model of `PromptParser.parse` on the safe_load view of the raw text.
YAML errors keep the "YAML parsing error: " prefix; every error raised inside
the try block (the PromptParseError raises included, since `except Exception`
catches them) is re-wrapped with "Unexpected parsing error: ". -/
def parse (raw : Except String Yval) : Except String Yval :=
  match raw with
  | .error yamlMsg => .error ("YAML parsing error: " ++ yamlMsg)
  | .ok v =>
      match parseBody v with
      | .error m => .error ("Unexpected parsing error: " ++ m)
      | .ok t => .ok t

/-- Model of `PromptParser.validate_prompt`. -/
def validate_prompt (raw : Except String Yval) : Bool × Option String :=
  match parse raw with
  | .ok _ => (true, none)
  | .error m => (false, some m)

def identStart (c : Char) : Bool := c.isAlpha || c == '_'

def identChar (c : Char) : Bool := c.isAlpha || c.isDigit || c == '_'

/-- One attempt of the placeholder pattern at the head of the text: two open
braces, a non-empty maximal identifier run starting with a letter or
underscore, two closing braces. -/
def tryPlaceholder (cs : List Char) : Option (String × List Char) :=
  match cs with
  | c1 :: c2 :: rest =>
      if c1 = '{' ∧ c2 = '{' then
        match rest.dropWhile identChar with
        | d1 :: d2 :: rem =>
            if d1 = '}' ∧ d2 = '}' ∧ rest.takeWhile identChar ≠ []
                ∧ identStart ((rest.takeWhile identChar).headD 'x') then
              some (String.mk (rest.takeWhile identChar), rem)
            else none
        | _ => none
      else none
  | _ => none

/-- Scan of `variable_pattern.sub` over the text: leftmost matches, a bound
name is replaced by its value, an unbound one is kept verbatim, and the scan
resumes after the match. Fuel is one unit per attempted position, so the text
length is always enough. -/
def pySubstF (vars : List (String × String)) : Nat → List Char → List Char
  | _, [] => []
  | 0, cs => cs
  | fuel + 1, c :: cs =>
      match tryPlaceholder (c :: cs) with
      | some (nm, rem) =>
          (match vars.lookup nm with
           | some v => v.data
           | none => '{' :: '{' :: (nm.data ++ '}' :: '}' :: [])) ++ pySubstF vars fuel rem
      | none => c :: pySubstF vars fuel cs

/-- Model of `_substitute_string`. -/
def substituteString (vars : List (String × String)) (text : String) : String :=
  String.mk (pySubstF vars text.data.length text.data)

mutual
/-- Model of `_deep_substitute`: dict values and list elements recursively,
strings through the pattern, everything else unchanged; keys untouched. -/
def deepSubstitute (vars : List (String × String)) : Yval → Yval
  | .map kvs => .map (deepSubstituteKvs vars kvs)
  | .arr vs => .arr (deepSubstituteArr vars vs)
  | .s t => .s (substituteString vars t)
  | .i v => .i v
  | .b v => .b v
  | .null => .null

def deepSubstituteArr (vars : List (String × String)) : List Yval → List Yval
  | [] => []
  | v :: vs => deepSubstitute vars v :: deepSubstituteArr vars vs

def deepSubstituteKvs (vars : List (String × String)) : List (String × Yval) → List (String × Yval)
  | [] => []
  | (k, v) :: kvs => (k, deepSubstitute vars v) :: deepSubstituteKvs vars kvs
end


/-- Model of `PromptParser.substitute_variables`. -/
def substitute_variables (promptData : Yval) (vars : List (String × String)) : Yval :=
  deepSubstitute vars promptData

mutual
/-- Python str() of a value, as used by the f-string interpolation in
`format_system_prompt` (parsed sections are strings there). -/
def pyStr : Yval → String
  | .s v => v
  | .i v => toString v
  | .b true => "True"
  | .b false => "False"
  | .null => "None"
  | .arr vs => "[" ++ String.intercalate ", " (pyReprList vs) ++ "]"
  | .map kvs => "\x7b" ++ String.intercalate ", " (pyReprKvs kvs) ++ "\x7d"

def pyRepr : Yval → String
  | .s v => "\'" ++ v ++ "\'"
  | .i v => toString v
  | .b true => "True"
  | .b false => "False"
  | .null => "None"
  | .arr vs => "[" ++ String.intercalate ", " (pyReprList vs) ++ "]"
  | .map kvs => "\x7b" ++ String.intercalate ", " (pyReprKvs kvs) ++ "\x7d"

def pyReprList : List Yval → List String
  | [] => []
  | v :: vs => pyRepr v :: pyReprList vs

def pyReprKvs : List (String × Yval) → List String
  | [] => []
  | (k, v) :: kvs => ("\'" ++ k ++ "\': " ++ pyRepr v) :: pyReprKvs kvs
end


/-- Python `value.get(key, default)`; non-dicts raise AttributeError. -/
def pyGet (v : Yval) (key : String) (dflt : Yval) : Except String Yval :=
  match v with
  | .map kvs => .ok ((kvs.lookup key).getD dflt)
  | _ => .error "AttributeError: object has no attribute get"

def sectionHeaders : List (String × String) :=
  [("persona", "PERSONA:\n"), ("context", "\nCONTEXT:\n"),
   ("behavior", "\nBEHAVIOR GUIDELINES:\n"), ("constraints", "\nCONSTRAINTS:\n"),
   ("examples", "\nEXAMPLES:\n"), ("format", "\nRESPONSE FORMAT:\n")]

/-- The six section-building if-blocks of `format_system_prompt`. -/
def buildSectionParts (parsed : Yval) : List (String × String) → Except String (List String)
  | [] => .ok []
  | (key, header) :: rest =>
      match pyContains key parsed with
      | .error e => .error e
      | .ok true =>
          match pyIndex key parsed with
          | .error e => .error e
          | .ok v =>
              match buildSectionParts parsed rest with
              | .error e => .error e
              | .ok parts => .ok ((header ++ pyStr v) :: parts)
      | .ok false => buildSectionParts parsed rest

/-- Model of `PromptParser.format_system_prompt`. -/
def format_system_prompt (promptData : Yval) : Except String Yval :=
  match pyGet promptData "agent" (.map []) with
  | .error e => .error e
  | .ok agent =>
      match pyGet agent "system_prompt" (.s "") with
      | .error e => .error e
      | .ok systemPrompt =>
          match pyContains "system_prompt_parsed" agent with
          | .error e => .error e
          | .ok false => .ok systemPrompt
          | .ok true =>
              match pyIndex "system_prompt_parsed" agent with
              | .error e => .error e
              | .ok parsed =>
                  if pyTruthy parsed then
                    match buildSectionParts parsed sectionHeaders with
                    | .error e => .error e
                    | .ok parts =>
                        if parts.isEmpty then .ok systemPrompt
                        else .ok (.s (String.intercalate "\n" parts))
                  else .ok systemPrompt

/-! Data model of `models.py`, restricted to the fields the orchestrator
reads. Timestamps are modelled by a Nat clock. -/

/-- User profile fields read when building the substitution context. -/
structure UserProfile where
  profile_summary : Option String
  expertise_areas : Option (List String)
  risk_tolerance : Option String

/-- Agent row. `system_prompt_raw` is carried as its yaml.safe_load view. -/
structure Agent where
  id : Nat
  name : String
  role : String
  model_provider : String
  model_name : String
  system_prompt_raw : Except String Yval
  temperature : Rat
  max_tokens : Nat
  user_profile : UserProfile

/-- DebateSession row. -/
structure SessionRow where
  id : Nat
  topic : String
  debate_format : String
  agent_ids : List Nat
  max_turns : Nat
  status : String
  started_at : Option Nat
  completed_at : Option Nat
  decision_summary : Option String
deriving DecidableEq

/-- DebateMessage row. -/
structure DbMessage where
  debate_session_id : Nat
  agent_id : Nat
  content : String
  turn_number : Nat
  response_time_ms : Nat
deriving DecidableEq

/-- The storage collaborator: tables in row order. -/
structure Db where
  agents : List Agent
  sessions : List SessionRow
  messages : List DbMessage

/-- AgentState from agent_orchestrator.py (the llm client is replaced by the
generation oracle, indexed by call site). -/
structure AgentState where
  agent_id : Nat
  name : String
  role : String
  system_prompt : Yval
  temperature : Rat
  max_tokens : Nat

/-- The message_data dict yielded for each successful turn step. -/
structure TurnEvent where
  agent_id : Nat
  agent_name : String
  agent_role : String
  content : String
  turn : Nat
  timestamp : Nat
deriving DecidableEq

/-- Observable effects of a debate run, in order of occurrence. -/
inductive Action where
  | genCall (turn idx : Nat)
  | persist (m : DbMessage)
  | emit (e : TurnEvent)
  | sleep (ms : Nat)
  | setStatus (sessionId : Nat) (status : String)
deriving DecidableEq

/-- The generation capability as an oracle over the call site (turn index,
participant index) and the arguments the code passes to `generate`. -/
def GenOracle : Type :=
  Nat → Nat → String → Yval → Rat → Nat → Except String String

/-- In-memory state threaded through `_run_turn_based_debate`, plus the
action trace and a clock (generation latency comes from `dur`). -/
structure RunState where
  messages : List TurnEvent
  dbMessages : List DbMessage
  actions : List Action
  clock : Nat

def initialRunState : RunState := ⟨[], [], [], 0⟩

/-- The fixed context message of `_run_turn_based_debate`. -/
def contextMessage (topic : String) : String :=
  "You are participating in a collaborative decision-making discussion about:\n\nTOPIC: "
    ++ topic
    ++ "\n\nYour goal is to provide thoughtful input based on your role and perspective. Listen to other participants and build on their ideas while maintaining your unique viewpoint.\n\nThe discussion will proceed in turns. Share your insights, ask questions, and help arrive at a well-reasoned decision."

/-- Model of `_build_conversation_history`: the last `maxMessages` messages
under the fixed header, or the empty string when there are none. -/
def build_conversation_history (messages : List TurnEvent) (maxMessages : Nat) : String :=
  if messages.isEmpty then ""
  else
    let recent := messages.drop (messages.length - maxMessages)
    String.intercalate "\n"
      ("CONVERSATION SO FAR:" ::
        recent.map (fun m => "\n" ++ m.agent_name ++ " (" ++ m.agent_role ++ "):\n" ++ m.content))

/-- The prompt built for one step: the per-position template of
`_run_turn_based_debate`, with the rendered conversation history prepended
when it is non-empty. -/
def stepPrompt (topic : String) (turn idx : Nat) (st : RunState) : String :=
  let history := build_conversation_history st.messages 10
  let prompt :=
    if turn == 0 && idx == 0 then
      contextMessage topic ++ "\n\nPlease share your initial thoughts on this topic."
    else if turn == 0 then
      contextMessage topic ++ "\n\nThe discussion has begun. Please share your perspective."
    else
      "Based on the discussion so far, what are your thoughts? Do you have any questions or additional insights?"
  if history ≠ "" then history ++ "\n\n" ++ prompt else prompt

/-- One participant step of the turn loop: build the prompt, call the
generation capability; on success append the message in memory, persist it,
emit it and sleep 500 ms; on failure `continue` (which skips the sleep). -/
def runStep (gen : GenOracle) (dur : Nat → Nat → Nat) (sessionId : Nat) (topic : String)
    (turn idx : Nat) (a : AgentState) (st : RunState) : RunState :=
  match gen turn idx (stepPrompt topic turn idx st) a.system_prompt a.temperature a.max_tokens with
  | .ok response =>
      let t := st.clock + dur turn idx
      let ev : TurnEvent := ⟨a.agent_id, a.name, a.role, response, turn, t⟩
      let dm : DbMessage := ⟨sessionId, a.agent_id, response, turn, dur turn idx⟩
      { messages := st.messages ++ [ev]
        dbMessages := st.dbMessages ++ [dm]
        actions := st.actions ++ [.genCall turn idx, .persist dm, .emit ev, .sleep 500]
        clock := t + 500 }
  | .error _ =>
      { st with actions := st.actions ++ [.genCall turn idx], clock := st.clock + dur turn idx }

/-- The enumerate loop over the participants within one turn. -/
def runAgents (gen : GenOracle) (dur : Nat → Nat → Nat) (sessionId : Nat) (topic : String)
    (turn : Nat) : Nat → List AgentState → RunState → RunState
  | _, [], st => st
  | idx, a :: rest, st =>
      runAgents gen dur sessionId topic turn (idx + 1) rest (runStep gen dur sessionId topic turn idx a st)

/-- Model of `_run_turn_based_debate`: for each turn, each participant in the
fixed order. -/
def run_turn_based_debate (gen : GenOracle) (dur : Nat → Nat → Nat) (sessionId : Nat)
    (topic : String) (agents : List AgentState) (maxTurns : Nat) (st : RunState) : RunState :=
  (List.range maxTurns).foldl (fun s turn => runAgents gen dur sessionId topic turn 0 agents s) st

/-- Python `x or default` for optional strings: empty and missing both fall
back. -/
def pyOrElse (v : Option String) (dflt : String) : String :=
  match v with
  | some s => if s == "" then dflt else s
  | none => dflt

/-- The user context built once per debate run in `start_debate`. -/
def buildUserContext (p : UserProfile) (topic : String) : List (String × String) :=
  [("user_profile_summary", pyOrElse p.profile_summary "No profile available"),
   ("decision_topic", topic),
   ("user_expertise_areas", String.intercalate ", " (p.expertise_areas.getD [])),
   ("user_risk_tolerance", pyOrElse p.risk_tolerance "moderate")]

/-- Model of `LLMClientFactory.create_client`: only the provider check is
observable here. -/
def create_client (provider _modelName : String) : Except String Unit :=
  let p := strToLower provider
  if p == "gemini" then .ok ()
  else if p == "ollama" then .ok ()
  else .error ("Unsupported provider: " ++ p ++ ". Use \'gemini\' or \'ollama\'.")

/-- The per-agent setup loop of `start_debate`: parse, substitute, format,
create the client; any failure propagates. -/
def buildAgentStates (ctx : List (String × String)) : List Agent → Except String (List AgentState)
  | [] => .ok []
  | a :: rest =>
      match parse a.system_prompt_raw with
      | .error e => .error e
      | .ok parsed =>
          match format_system_prompt (substitute_variables parsed ctx) with
          | .error e => .error e
          | .ok formatted =>
              match create_client a.model_provider a.model_name with
              | .error e => .error e
              | .ok _ =>
                  match buildAgentStates ctx rest with
                  | .error e => .error e
                  | .ok states =>
                      .ok (⟨a.id, a.name, a.role, formatted, a.temperature, a.max_tokens⟩ :: states)

/-- DebateFormat enum. -/
inductive DebateFormat where
  | TURN_BASED
  | MODERATED
  | FREE_FORM
deriving DecidableEq

/-- `DebateFormat(value)`: None for an invalid value (Python raises
ValueError there). -/
def debateFormatOfString (v : String) : Option DebateFormat :=
  if v == "turn_based" then some .TURN_BASED
  else if v == "moderated" then some .MODERATED
  else if v == "free_form" then some .FREE_FORM
  else none

/-- Update every session row matching the id. -/
def updateSession (sessions : List SessionRow) (sid : Nat) (f : SessionRow → SessionRow) :
    List SessionRow :=
  sessions.map (fun s => if s.id == sid then f s else s)

/-- Result of consuming the `start_debate` async generator to the end:
the yielded turn events, the final storage state, the action trace, and the
exception that escaped, if any. -/
structure OrchResult where
  events : List TurnEvent
  db : Db
  actions : List Action
  err : Option String

/-- The activation, turn loop and completion of `start_debate`, after the
participants have been resolved, their states built, and the format parsed:
mark the session active (when the row exists), run the turn loop, persist the
turn rows, mark the session completed. -/
def orchestrator_run (db : Db) (gen : GenOracle) (dur : Nat → Nat → Nat) (sid : Nat)
    (topic : String) (maxTurns : Nat) (agentStates : List AgentState) : OrchResult :=
  let sessionFound := (db.sessions.find? (fun s => s.id == sid)).isSome
  let db1 : Db :=
    if sessionFound then
      { db with sessions := (updateSession db.sessions sid
          (fun s => { s with status := "active", started_at := some 0 })) }
    else db
  let stF := run_turn_based_debate gen dur sid topic agentStates maxTurns initialRunState
  let db2 : Db := { db1 with messages := db1.messages ++ stF.dbMessages }
  let db3 : Db :=
    if sessionFound then
      { db2 with sessions := (updateSession db2.sessions sid
          (fun s => { s with status := "completed", completed_at := some stF.clock })) }
    else db2
  ⟨stF.messages, db3,
    (if sessionFound then [Action.setStatus sid "active"] else [])
      ++ stF.actions
      ++ (if sessionFound then [Action.setStatus sid "completed"] else []),
    none⟩

/-- Model of `AgentOrchestrator.start_debate`: resolve the participants by a
membership query over the agents table, fail fast below 2, build the states,
parse the format, then run (the non-turn_based formats run the same
turn-based loop). -/
def orchestrator_start_debate (db : Db) (gen : GenOracle) (dur : Nat → Nat → Nat)
    (session_id : Nat) (agent_ids : List Nat) (topic : String) (max_turns : Nat)
    (debate_format : String) : OrchResult :=
  if (db.agents.filter (fun a => agent_ids.contains a.id)).length < 2 then
    ⟨[], db, [], some "At least 2 agents required for a debate"⟩
  else
    match db.agents.filter (fun a => agent_ids.contains a.id) with
    | [] => ⟨[], db, [], some "At least 2 agents required for a debate"⟩
    | a0 :: rest =>
        match buildAgentStates (buildUserContext a0.user_profile topic) (a0 :: rest) with
        | .error e => ⟨[], db, [], some e⟩
        | .ok agentStates =>
            match debateFormatOfString debate_format with
            | none => ⟨[], db, [], some (debate_format ++ " is not a valid DebateFormat")⟩
            | some fmt =>
                if fmt == DebateFormat.TURN_BASED then
                  orchestrator_run db gen dur session_id topic max_turns agentStates
                else
                  orchestrator_run db gen dur session_id topic max_turns agentStates

/-- Stable insertion keeping later-inserted rows after equal keys, so the
sort below models `order_by(turn_number)` on the appended rows. -/
def insertByTurn (m : DbMessage) : List DbMessage → List DbMessage
  | [] => [m]
  | x :: xs =>
      if m.turn_number ≤ x.turn_number then m :: x :: xs else x :: insertByTurn m xs

/-- Stable sort by turn number. -/
def sortByTurnNumber : List DbMessage → List DbMessage
  | [] => []
  | m :: ms => insertByTurn m (sortByTurnNumber ms)

/-- Model of `AgentOrchestrator.generate_debate_summary`: the payload dict (or
None), the storage state, and how many generation calls were made. -/
def generate_debate_summary (db : Db) (sumGen : String → Rat → Nat → Except String String)
    (session_id : Nat) : Option (List (String × Yval)) × Db × Nat :=
  match db.sessions.find? (fun s => s.id == session_id) with
  | none => (none, db, 0)
  | some session =>
      let msgs := sortByTurnNumber (db.messages.filter (fun m => m.debate_session_id == session_id))
      if msgs.isEmpty then
        (some [("summary", .s "No discussion took place."), ("insights", .arr [])], db, 0)
      else
        let conversation := msgs.filterMap (fun m =>
          (db.agents.find? (fun a => a.id == m.agent_id)).map (fun a => a.name ++ ": " ++ m.content))
        let fullConversation := String.intercalate "\n\n" conversation
        let summaryPrompt :=
          "Analyze the following decision-making discussion and provide:\n1. A concise summary of the main decision or conclusion (2-3 sentences)\n2. 3-5 key insights or important points raised\n3. Any areas of agreement or disagreement\n\nDiscussion Topic: "
            ++ session.topic ++ "\n\nConversation:\n" ++ fullConversation ++ "\n\nProvide your analysis:"
        match sumGen summaryPrompt (3 / 10) 600 with
        | .error _ => (none, db, 1)
        | .ok response =>
            (some [("summary", .s response),
                   ("message_count", .i msgs.length),
                   ("agents_participated", .i ((msgs.map (fun m => m.agent_id)).dedup.length))],
             { db with sessions := (updateSession db.sessions session_id
                 (fun s => { s with decision_summary := some response })) },
             1)

/-- An event of the server-sent stream. -/
inductive StreamEvent where
  | turn (e : TurnEvent)
  | summary (d : List (String × Yval))
  | complete
  | error (msg : String)

/-- Result of the `/api/debates/{id}/start` endpoint: the streamed events,
the final storage state, the debate action trace, and the HTTP error code
when the request is rejected before streaming. -/
structure EndpointResult where
  events : List StreamEvent
  db : Db
  actions : List Action
  httpError : Option Nat

/-- Model of app.start_debate: 404 when the session is missing, 400 when it is
not pending; otherwise run the orchestrator, then the summary, then complete;
an exception escaping the generator becomes an error event. -/
def app_start_debate (db : Db) (gen : GenOracle) (dur : Nat → Nat → Nat)
    (sumGen : String → Rat → Nat → Except String String) (session_id : Nat) : EndpointResult :=
  match db.sessions.find? (fun s => s.id == session_id) with
  | none => ⟨[], db, [], some 404⟩
  | some session =>
      if session.status != "pending" then ⟨[], db, [], some 400⟩
      else
        let r := orchestrator_start_debate db gen dur session_id session.agent_ids
          session.topic session.max_turns session.debate_format
        match r.err with
        | some m => ⟨r.events.map .turn ++ [.error m], r.db, r.actions, none⟩
        | none =>
            let su := generate_debate_summary r.db sumGen session_id
            let summaryEvents : List StreamEvent :=
              match su.1 with
              | some d => [.summary d]
              | none => []
            ⟨r.events.map .turn ++ summaryEvents ++ [.complete], su.2.1, r.actions, none⟩

/-! Statement-side projections of the run, and the shape a run is expected to
take given which call sites fail. -/

/-- Turn index and participant id of an emitted event. -/
def evPair (e : TurnEvent) : Nat × Nat := (e.turn, e.agent_id)

/-- Turn index and participant id of a persisted row. -/
def dbPair (m : DbMessage) : Nat × Nat := (m.turn_number, m.agent_id)

/-- The turn events emitted along a trace, in order. -/
def emittedEvents (acts : List Action) : List TurnEvent :=
  acts.filterMap (fun a => match a with | .emit e => some e | _ => none)

/-- The call sites of the generation calls along a trace, in order. -/
def genCallPairs (acts : List Action) : List (Nat × Nat) :=
  acts.filterMap (fun a => match a with | .genCall t i => some (t, i) | _ => none)

/-- The session status values written along a trace, in order. -/
def statusWrites (acts : List Action) : List String :=
  acts.filterMap (fun a => match a with | .setStatus _ st => some st | _ => none)

/-- The number of pauses inserted along a trace. -/
def sleepCount (acts : List Action) : Nat :=
  (acts.filter (fun a => match a with | .sleep _ => true | _ => false)).length

/-- The skeleton of an action, forgetting record contents. -/
inductive AKind where
  | genCall (turn idx : Nat)
  | persist
  | emit
  | sleep (ms : Nat)
  | setStatus (status : String)
deriving DecidableEq

def actionKind : Action → AKind
  | .genCall t i => .genCall t i
  | .persist _ => .persist
  | .emit _ => .emit
  | .sleep n => .sleep n
  | .setStatus _ st => .setStatus st

def actionKinds (acts : List Action) : List AKind := acts.map actionKind

/-- Expected (turn, participant id) pairs of the successful steps of one turn,
given which call sites fail. -/
def agentsPairs (fails : Nat → Nat → Bool) (turn : Nat) : Nat → List AgentState → List (Nat × Nat)
  | _, [] => []
  | idx, a :: rest =>
      (if fails turn idx then [] else [(turn, a.agent_id)]) ++ agentsPairs fails turn (idx + 1) rest

/-- Expected action skeleton of one turn: a failed step is a bare generation
call, a successful one is call, persist, emit, pause. -/
def agentsKinds (fails : Nat → Nat → Bool) (turn : Nat) : Nat → List AgentState → List AKind
  | _, [] => []
  | idx, _ :: rest =>
      (if fails turn idx then [AKind.genCall turn idx]
       else [AKind.genCall turn idx, .persist, .emit, .sleep 500])
        ++ agentsKinds fails turn (idx + 1) rest

/-- Concatenation of a per-turn list over turns 0..n-1. -/
def turnsConcat {α : Type} (f : Nat → List α) : Nat → List α
  | 0 => []
  | n + 1 => turnsConcat f n ++ f n

/-- Expected (turn, participant id) pairs of a whole run. -/
def debatePairs (fails : Nat → Nat → Bool) (agents : List AgentState) (maxTurns : Nat) :
    List (Nat × Nat) :=
  turnsConcat (fun t => agentsPairs fails t 0 agents) maxTurns

/-- Expected action skeleton of a whole run. -/
def debateKinds (fails : Nat → Nat → Bool) (agents : List AgentState) (maxTurns : Nat) :
    List AKind :=
  turnsConcat (fun t => agentsKinds fails t 0 agents) maxTurns

/-- Expected generation call sites of one turn: every position, failed or not. -/
def agentsCallPairs (turn : Nat) : Nat → List AgentState → List (Nat × Nat)
  | _, [] => []
  | idx, _ :: rest => (turn, idx) :: agentsCallPairs turn (idx + 1) rest

/-- Expected generation call sites of a whole run. -/
def debateCallPairs (agents : List AgentState) (maxTurns : Nat) : List (Nat × Nat) :=
  turnsConcat (fun t => agentsCallPairs t 0 agents) maxTurns

/-- Timestamps of the in-memory messages are non-decreasing and bounded by
the clock. -/
def tsBounded (st : RunState) : Prop :=
  List.Pairwise (fun a b => a ≤ b) (st.messages.map (fun e => e.timestamp)) ∧
  ∀ e ∈ st.messages, e.timestamp ≤ st.clock

/-! Counting helpers over action skeletons. -/

def kindCallPairs (ks : List AKind) : List (Nat × Nat) :=
  ks.filterMap (fun k => match k with | .genCall t i => some (t, i) | _ => none)

def isSleepKind : AKind → Bool
  | .sleep _ => true
  | _ => false

/-! Concrete fixtures used by witnesses and counterexamples. -/

def wAgentA : AgentState := ⟨1, "A", "analyst", .s "pa", 7 / 10, 500⟩

def wAgentB : AgentState := ⟨2, "B", "critic", .s "pb", 7 / 10, 500⟩

def genAllOk : GenOracle := fun _ _ _ _ _ _ => .ok "fine"

def genFailTurn1Second : GenOracle :=
  fun t i _ _ _ _ => if t == 1 && i == 1 then .error "provider error" else .ok "fine"

def genFailFirst : GenOracle :=
  fun t i _ _ _ _ => if t == 0 && i == 0 then .error "provider error" else .ok "fine"

def durOne : Nat → Nat → Nat := fun _ _ => 1

/-! Database fixtures. -/

def wProfile : UserProfile := ⟨some "summary", some ["finance"], some "low"⟩

def wRawTemplate : Except String Yval :=
  .ok (.map [("agent", .map [("name", .s "A"), ("role", .s "analyst"),
    ("system_prompt", .s "Be helpful.")])])

def wAgentRow1 : Agent :=
  ⟨1, "A", "analyst", "gemini", "gemini-2.5-flash", wRawTemplate, 7 / 10, 500, wProfile⟩

def wAgentRow2 : Agent :=
  ⟨2, "B", "critic", "ollama", "llama2", wRawTemplate, 7 / 10, 500, wProfile⟩

def wSession : SessionRow := ⟨1, "T", "turn_based", [2, 1], 1, "pending", none, none, none⟩

def wDb : Db := ⟨[wAgentRow1, wAgentRow2], [wSession], []⟩

def sumGenW : String → Rat → Nat → Except String String := fun _ _ _ => .ok "a summary"

/-! Session-lifecycle statement helpers. -/

/-- Status of the session the endpoint resolves, if any. -/
def foundSessionStatus (db : Db) (sid : Nat) : Option String :=
  (db.sessions.find? (fun s => s.id == sid)).map (fun s => s.status)

/-- How many participants the session's agent-id list resolves to. -/
def resolvedParticipantCount (db : Db) (sid : Nat) : Nat :=
  match db.sessions.find? (fun s => s.id == sid) with
  | some s => (db.agents.filter (fun a => s.agent_ids.contains a.id)).length
  | none => 0

/-! Placeholder-scan lemmas for the substitution claims. -/

/-- Names of all placeholder matches the scan finds, in order (same fueled
scan as the substitution itself). -/
def matchNamesF : Nat → List Char → List String
  | _, [] => []
  | 0, _ => []
  | fuel + 1, c :: cs =>
      match tryPlaceholder (c :: cs) with
      | some (nm, rem) => nm :: matchNamesF fuel rem
      | none => matchNamesF fuel cs

def matchNames (cs : List Char) : List String := matchNamesF cs.length cs

/-- No placeholder found in the text has a name bound by the context. -/
def strNoBound (vars : List (String × String)) (text : String) : Bool :=
  (matchNames text.data).all (fun n => (vars.lookup n).isNone)

mutual
/-- No string anywhere in the value contains a placeholder bound by the
context. -/
def noBoundY (vars : List (String × String)) : Yval → Bool
  | .s t => strNoBound vars t
  | .i _ => true
  | .b _ => true
  | .null => true
  | .arr vs => noBoundYArr vars vs
  | .map kvs => noBoundYKvs vars kvs

def noBoundYArr (vars : List (String × String)) : List Yval → Bool
  | [] => true
  | v :: vs => noBoundY vars v && noBoundYArr vars vs

def noBoundYKvs (vars : List (String × String)) : List (String × Yval) → Bool
  | [] => true
  | (_, v) :: kvs => noBoundY vars v && noBoundYKvs vars kvs
end


/-! Substitution fixtures. -/

def c7Raw : Yval :=
  .map [("agent", .map [("name", .s "A"), ("role", .s "critic"),
    ("system_prompt", .s "\x7b\x7ba\x7d\x7d")])]

def c7Parsed : Yval :=
  .map [("agent", .map [("name", .s "A"), ("role", .s "critic"),
    ("system_prompt", .s "\x7b\x7ba\x7d\x7d"),
    ("system_prompt_parsed", .map [("full_text", .s "\x7b\x7ba\x7d\x7d")])])]

def c7Ctx : List (String × String) := [("a", "\x7b\x7bb\x7d\x7d"), ("b", "x")]

def c7WCtx : List (String × String) := [("a", "X")]

/-- The agent section's field of a template, for reading off a substitution
result. -/
def agentField (t : Yval) (key : String) : Option Yval :=
  match t with
  | .map kvs =>
      match kvs.lookup "agent" with
      | some (.map akvs) => akvs.lookup key
      | _ => none
  | _ => none

theorem actionKinds_nil : actionKinds [] = [] := rfl

theorem actionKinds_cons (a : Action) (l : List Action) :
    actionKinds (a :: l) = actionKind a :: actionKinds l := rfl

theorem actionKinds_append (l1 l2 : List Action) :
    actionKinds (l1 ++ l2) = actionKinds l1 ++ actionKinds l2 := by
  simp [actionKinds]

/-! Characterization of the turn loop, for an oracle whose success at each
call site is decided by `fails`. -/

theorem runAgents_spec (gen : GenOracle) (dur : Nat → Nat → Nat) (sid : Nat) (topic : String)
    (fails : Nat → Nat → Bool)
    (hgen : ∀ t i p s temp mt, (gen t i p s temp mt).isOk = !(fails t i))
    (turn : Nat) :
    ∀ (l : List AgentState) (idx : Nat) (st : RunState),
      ((runAgents gen dur sid topic turn idx l st).messages.map evPair =
        st.messages.map evPair ++ agentsPairs fails turn idx l)
      ∧ ((runAgents gen dur sid topic turn idx l st).dbMessages.map dbPair =
          st.dbMessages.map dbPair ++ agentsPairs fails turn idx l)
      ∧ (actionKinds (runAgents gen dur sid topic turn idx l st).actions =
          actionKinds st.actions ++ agentsKinds fails turn idx l) := by
  intro l
  induction l with
  | nil => intro idx st; simp [runAgents, agentsPairs, agentsKinds]
  | cons a rest ih =>
    intro idx st
    have hcall := hgen turn idx (stepPrompt topic turn idx st) a.system_prompt
      a.temperature a.max_tokens
    rcases hg : gen turn idx (stepPrompt topic turn idx st) a.system_prompt
        a.temperature a.max_tokens with e | r
    · rw [hg] at hcall
      have hf : fails turn idx = true := by
        simpa [Except.isOk] using hcall.symm
      have hstep : runStep gen dur sid topic turn idx a st =
          { st with actions := st.actions ++ [.genCall turn idx],
                    clock := st.clock + dur turn idx } := by
        simp [runStep, hg]
      obtain ⟨ih1, ih2, ih3⟩ := ih (idx + 1)
        ({ st with actions := st.actions ++ [.genCall turn idx],
                   clock := st.clock + dur turn idx })
      refine ⟨?_, ?_, ?_⟩ <;>
        simp [runAgents, hstep, ih1, ih2, ih3, agentsPairs, agentsKinds, hf,
          actionKinds_append, actionKinds_cons, actionKinds_nil, actionKind,
          List.append_assoc]
    · rw [hg] at hcall
      have hf : fails turn idx = false := by
        simpa [Except.isOk] using hcall.symm
      have hstep : runStep gen dur sid topic turn idx a st =
          { messages := st.messages ++
              [⟨a.agent_id, a.name, a.role, r, turn, st.clock + dur turn idx⟩],
            dbMessages := st.dbMessages ++ [⟨sid, a.agent_id, r, turn, dur turn idx⟩],
            actions := st.actions ++
              [.genCall turn idx,
               .persist ⟨sid, a.agent_id, r, turn, dur turn idx⟩,
               .emit ⟨a.agent_id, a.name, a.role, r, turn, st.clock + dur turn idx⟩,
               .sleep 500],
            clock := st.clock + dur turn idx + 500 } := by
        simp [runStep, hg]
      obtain ⟨ih1, ih2, ih3⟩ := ih (idx + 1)
        ({ messages := st.messages ++
              [⟨a.agent_id, a.name, a.role, r, turn, st.clock + dur turn idx⟩],
           dbMessages := st.dbMessages ++ [⟨sid, a.agent_id, r, turn, dur turn idx⟩],
           actions := st.actions ++
              [.genCall turn idx,
               .persist ⟨sid, a.agent_id, r, turn, dur turn idx⟩,
               .emit ⟨a.agent_id, a.name, a.role, r, turn, st.clock + dur turn idx⟩,
               .sleep 500],
           clock := st.clock + dur turn idx + 500 })
      refine ⟨?_, ?_, ?_⟩ <;>
        simp [runAgents, hstep, ih1, ih2, ih3, agentsPairs, agentsKinds, hf,
          actionKinds_append, actionKinds_cons, actionKinds_nil, actionKind,
          evPair, dbPair, List.append_assoc]

theorem run_debate_spec (gen : GenOracle) (dur : Nat → Nat → Nat) (sid : Nat) (topic : String)
    (fails : Nat → Nat → Bool)
    (hgen : ∀ t i p s temp mt, (gen t i p s temp mt).isOk = !(fails t i))
    (agents : List AgentState) :
    ∀ (maxTurns : Nat) (st : RunState),
      ((run_turn_based_debate gen dur sid topic agents maxTurns st).messages.map evPair =
        st.messages.map evPair ++ debatePairs fails agents maxTurns)
      ∧ ((run_turn_based_debate gen dur sid topic agents maxTurns st).dbMessages.map dbPair =
          st.dbMessages.map dbPair ++ debatePairs fails agents maxTurns)
      ∧ (actionKinds (run_turn_based_debate gen dur sid topic agents maxTurns st).actions =
          actionKinds st.actions ++ debateKinds fails agents maxTurns) := by
  intro maxTurns
  induction maxTurns with
  | zero =>
    intro st
    simp [run_turn_based_debate, debatePairs, debateKinds, turnsConcat]
  | succ n ih =>
    intro st
    have hr : run_turn_based_debate gen dur sid topic agents (n + 1) st =
        runAgents gen dur sid topic n 0 agents
          (run_turn_based_debate gen dur sid topic agents n st) := by
      simp [run_turn_based_debate, List.range_succ]
    obtain ⟨h1, h2, h3⟩ := runAgents_spec gen dur sid topic fails hgen n agents 0
      (run_turn_based_debate gen dur sid topic agents n st)
    obtain ⟨g1, g2, g3⟩ := ih st
    rw [hr]
    refine ⟨?_, ?_, ?_⟩ <;>
      simp [h1, h2, h3, g1, g2, g3, debatePairs, debateKinds, turnsConcat, List.append_assoc]

/-! Invariants of the loop that hold for an arbitrary oracle. -/

theorem runStep_error (gen : GenOracle) (dur : Nat → Nat → Nat) (sid : Nat) (topic : String)
    (turn idx : Nat) (a : AgentState) (st : RunState) (e : String)
    (hg : gen turn idx (stepPrompt topic turn idx st) a.system_prompt a.temperature a.max_tokens
      = .error e) :
    runStep gen dur sid topic turn idx a st =
      { st with actions := st.actions ++ [.genCall turn idx],
                clock := st.clock + dur turn idx } := by
  simp [runStep, hg]

theorem runStep_ok (gen : GenOracle) (dur : Nat → Nat → Nat) (sid : Nat) (topic : String)
    (turn idx : Nat) (a : AgentState) (st : RunState) (r : String)
    (hg : gen turn idx (stepPrompt topic turn idx st) a.system_prompt a.temperature a.max_tokens
      = .ok r) :
    runStep gen dur sid topic turn idx a st =
      { messages := st.messages ++
          [⟨a.agent_id, a.name, a.role, r, turn, st.clock + dur turn idx⟩],
        dbMessages := st.dbMessages ++ [⟨sid, a.agent_id, r, turn, dur turn idx⟩],
        actions := st.actions ++
          [.genCall turn idx,
           .persist ⟨sid, a.agent_id, r, turn, dur turn idx⟩,
           .emit ⟨a.agent_id, a.name, a.role, r, turn, st.clock + dur turn idx⟩,
           .sleep 500],
        clock := st.clock + dur turn idx + 500 } := by
  simp [runStep, hg]

theorem runStep_tsBounded (gen : GenOracle) (dur : Nat → Nat → Nat) (sid : Nat) (topic : String)
    (turn idx : Nat) (a : AgentState) (st : RunState) (h : tsBounded st) :
    tsBounded (runStep gen dur sid topic turn idx a st) := by
  obtain ⟨hp, hb⟩ := h
  rcases hg : gen turn idx (stepPrompt topic turn idx st) a.system_prompt a.temperature
      a.max_tokens with e | r
  · rw [runStep_error gen dur sid topic turn idx a st e hg]
    exact ⟨hp, fun e' he' => Nat.le_trans (hb e' he') (Nat.le_add_right _ _)⟩
  · rw [runStep_ok gen dur sid topic turn idx a st r hg]
    refine ⟨?_, ?_⟩
    · rw [List.map_append, List.pairwise_append]
      refine ⟨hp, by simp, ?_⟩
      intro x hx y hy
      simp only [List.map_cons, List.map_nil, List.mem_singleton] at hy
      subst hy
      simp only [List.mem_map] at hx
      obtain ⟨e', he', rfl⟩ := hx
      exact Nat.le_trans (hb e' he') (Nat.le_add_right _ _)
    · intro e' he'
      rcases List.mem_append.mp he' with h1 | h2
      · have hc : st.clock ≤ st.clock + dur turn idx + 500 := by omega
        exact Nat.le_trans (hb e' h1) hc
      · simp only [List.mem_singleton] at h2
        subst h2
        show st.clock + dur turn idx ≤ st.clock + dur turn idx + 500
        omega

theorem runAgents_tsBounded (gen : GenOracle) (dur : Nat → Nat → Nat) (sid : Nat)
    (topic : String) (turn : Nat) :
    ∀ (l : List AgentState) (idx : Nat) (st : RunState), tsBounded st →
      tsBounded (runAgents gen dur sid topic turn idx l st) := by
  intro l
  induction l with
  | nil => intro idx st h; simpa [runAgents] using h
  | cons a rest ih =>
    intro idx st h
    exact ih (idx + 1) _ (runStep_tsBounded gen dur sid topic turn idx a st h)

theorem run_tsBounded (gen : GenOracle) (dur : Nat → Nat → Nat) (sid : Nat) (topic : String)
    (agents : List AgentState) :
    ∀ (maxTurns : Nat) (st : RunState), tsBounded st →
      tsBounded (run_turn_based_debate gen dur sid topic agents maxTurns st) := by
  intro maxTurns
  induction maxTurns with
  | zero => intro st h; simpa [run_turn_based_debate] using h
  | succ n ih =>
    intro st h
    have hr : run_turn_based_debate gen dur sid topic agents (n + 1) st =
        runAgents gen dur sid topic n 0 agents
          (run_turn_based_debate gen dur sid topic agents n st) := by
      simp [run_turn_based_debate, List.range_succ]
    rw [hr]
    exact runAgents_tsBounded gen dur sid topic n agents 0 _ (ih st h)

theorem emittedEvents_append (l1 l2 : List Action) :
    emittedEvents (l1 ++ l2) = emittedEvents l1 ++ emittedEvents l2 := by
  simp [emittedEvents]

theorem genCallPairs_append (l1 l2 : List Action) :
    genCallPairs (l1 ++ l2) = genCallPairs l1 ++ genCallPairs l2 := by
  simp [genCallPairs]

theorem statusWrites_append (l1 l2 : List Action) :
    statusWrites (l1 ++ l2) = statusWrites l1 ++ statusWrites l2 := by
  simp [statusWrites]

theorem runStep_emitted (gen : GenOracle) (dur : Nat → Nat → Nat) (sid : Nat) (topic : String)
    (turn idx : Nat) (a : AgentState) (st : RunState)
    (h : emittedEvents st.actions = st.messages) :
    emittedEvents (runStep gen dur sid topic turn idx a st).actions =
      (runStep gen dur sid topic turn idx a st).messages := by
  rcases hg : gen turn idx (stepPrompt topic turn idx st) a.system_prompt a.temperature
      a.max_tokens with e | r
  · rw [runStep_error gen dur sid topic turn idx a st e hg]
    dsimp only
    rw [emittedEvents_append, h]
    simp [emittedEvents]
  · rw [runStep_ok gen dur sid topic turn idx a st r hg]
    dsimp only
    rw [emittedEvents_append, h]
    simp [emittedEvents]

theorem runAgents_emitted (gen : GenOracle) (dur : Nat → Nat → Nat) (sid : Nat)
    (topic : String) (turn : Nat) :
    ∀ (l : List AgentState) (idx : Nat) (st : RunState),
      emittedEvents st.actions = st.messages →
      emittedEvents (runAgents gen dur sid topic turn idx l st).actions =
        (runAgents gen dur sid topic turn idx l st).messages := by
  intro l
  induction l with
  | nil => intro idx st h; simpa [runAgents] using h
  | cons a rest ih =>
    intro idx st h
    exact ih (idx + 1) _ (runStep_emitted gen dur sid topic turn idx a st h)

theorem run_emitted (gen : GenOracle) (dur : Nat → Nat → Nat) (sid : Nat) (topic : String)
    (agents : List AgentState) :
    ∀ (maxTurns : Nat) (st : RunState),
      emittedEvents st.actions = st.messages →
      emittedEvents (run_turn_based_debate gen dur sid topic agents maxTurns st).actions =
        (run_turn_based_debate gen dur sid topic agents maxTurns st).messages := by
  intro maxTurns
  induction maxTurns with
  | zero => intro st h; simpa [run_turn_based_debate] using h
  | succ n ih =>
    intro st h
    have hr : run_turn_based_debate gen dur sid topic agents (n + 1) st =
        runAgents gen dur sid topic n 0 agents
          (run_turn_based_debate gen dur sid topic agents n st) := by
      simp [run_turn_based_debate, List.range_succ]
    rw [hr]
    exact runAgents_emitted gen dur sid topic n agents 0 _ (ih st h)

theorem runStep_statusWrites (gen : GenOracle) (dur : Nat → Nat → Nat) (sid : Nat)
    (topic : String) (turn idx : Nat) (a : AgentState) (st : RunState) :
    statusWrites (runStep gen dur sid topic turn idx a st).actions =
      statusWrites st.actions := by
  rcases hg : gen turn idx (stepPrompt topic turn idx st) a.system_prompt a.temperature
      a.max_tokens with e | r
  · rw [runStep_error gen dur sid topic turn idx a st e hg]
    simp [statusWrites_append, statusWrites]
  · rw [runStep_ok gen dur sid topic turn idx a st r hg]
    simp [statusWrites_append, statusWrites]

theorem runAgents_statusWrites (gen : GenOracle) (dur : Nat → Nat → Nat) (sid : Nat)
    (topic : String) (turn : Nat) :
    ∀ (l : List AgentState) (idx : Nat) (st : RunState),
      statusWrites (runAgents gen dur sid topic turn idx l st).actions =
        statusWrites st.actions := by
  intro l
  induction l with
  | nil => intro idx st; simp [runAgents]
  | cons a rest ih =>
    intro idx st
    rw [runAgents, ih (idx + 1), runStep_statusWrites]

theorem run_statusWrites (gen : GenOracle) (dur : Nat → Nat → Nat) (sid : Nat) (topic : String)
    (agents : List AgentState) :
    ∀ (maxTurns : Nat) (st : RunState),
      statusWrites (run_turn_based_debate gen dur sid topic agents maxTurns st).actions =
        statusWrites st.actions := by
  intro maxTurns
  induction maxTurns with
  | zero => intro st; simp [run_turn_based_debate]
  | succ n ih =>
    intro st
    have hr : run_turn_based_debate gen dur sid topic agents (n + 1) st =
        runAgents gen dur sid topic n 0 agents
          (run_turn_based_debate gen dur sid topic agents n st) := by
      simp [run_turn_based_debate, List.range_succ]
    rw [hr, runAgents_statusWrites, ih]

theorem genCallPairs_cons (a : Action) (l : List Action) :
    genCallPairs (a :: l) =
      (match a with | .genCall t i => [(t, i)] | _ => []) ++ genCallPairs l := by
  cases a <;> rfl

theorem kindCallPairs_cons (k : AKind) (ks : List AKind) :
    kindCallPairs (k :: ks) =
      (match k with | .genCall t i => [(t, i)] | _ => []) ++ kindCallPairs ks := by
  cases k <;> rfl

theorem genCallPairs_eq_kinds (acts : List Action) :
    genCallPairs acts = kindCallPairs (actionKinds acts) := by
  induction acts with
  | nil => rfl
  | cons a l ih =>
    rw [genCallPairs_cons, actionKinds_cons, kindCallPairs_cons, ih]
    cases a <;> rfl

theorem kindCallPairs_append (l1 l2 : List AKind) :
    kindCallPairs (l1 ++ l2) = kindCallPairs l1 ++ kindCallPairs l2 := by
  simp [kindCallPairs]

theorem agentsKinds_cons_true (fails : Nat → Nat → Bool) (t idx : Nat) (a : AgentState)
    (rest : List AgentState) (hf : fails t idx = true) :
    agentsKinds fails t idx (a :: rest) =
      [AKind.genCall t idx] ++ agentsKinds fails t (idx + 1) rest := by
  simp [agentsKinds, hf]

theorem agentsKinds_cons_false (fails : Nat → Nat → Bool) (t idx : Nat) (a : AgentState)
    (rest : List AgentState) (hf : fails t idx = false) :
    agentsKinds fails t idx (a :: rest) =
      [AKind.genCall t idx, .persist, .emit, .sleep 500] ++ agentsKinds fails t (idx + 1) rest := by
  simp [agentsKinds, hf]

theorem agentsPairs_cons_true (fails : Nat → Nat → Bool) (t idx : Nat) (a : AgentState)
    (rest : List AgentState) (hf : fails t idx = true) :
    agentsPairs fails t idx (a :: rest) = agentsPairs fails t (idx + 1) rest := by
  simp [agentsPairs, hf]

theorem agentsPairs_cons_false (fails : Nat → Nat → Bool) (t idx : Nat) (a : AgentState)
    (rest : List AgentState) (hf : fails t idx = false) :
    agentsPairs fails t idx (a :: rest) =
      (t, a.agent_id) :: agentsPairs fails t (idx + 1) rest := by
  simp [agentsPairs, hf]

theorem kindCallPairs_agentsKinds (fails : Nat → Nat → Bool) (t : Nat) :
    ∀ (l : List AgentState) (idx : Nat),
      kindCallPairs (agentsKinds fails t idx l) = agentsCallPairs t idx l := by
  intro l
  induction l with
  | nil => intro idx; rfl
  | cons a rest ih =>
    intro idx
    cases hf : fails t idx with
    | false =>
      rw [agentsKinds_cons_false fails t idx a rest hf, kindCallPairs_append, ih]
      rfl
    | true =>
      rw [agentsKinds_cons_true fails t idx a rest hf, kindCallPairs_append, ih]
      rfl

theorem kindCallPairs_debateKinds (fails : Nat → Nat → Bool) (agents : List AgentState) :
    ∀ maxTurns : Nat,
      kindCallPairs (debateKinds fails agents maxTurns) = debateCallPairs agents maxTurns := by
  intro maxTurns
  induction maxTurns with
  | zero => rfl
  | succ n ih =>
    simp [debateKinds, debateCallPairs, turnsConcat, kindCallPairs_append,
      kindCallPairs_agentsKinds, ih]
    simp [debateKinds, debateCallPairs] at ih
    simp [ih]

theorem sleepCount_cons (a : Action) (l : List Action) :
    sleepCount (a :: l) =
      (match a with | .sleep _ => 1 | _ => 0) + sleepCount l := by
  cases a <;> simp [sleepCount, List.filter_cons, Nat.add_comm]

theorem kindSleeps_cons (k : AKind) (ks : List AKind) :
    (k :: ks).countP isSleepKind =
      (match k with | .sleep _ => 1 | _ => 0) + ks.countP isSleepKind := by
  cases k <;> simp [List.countP_cons, isSleepKind, Nat.add_comm]

theorem sleepCount_eq_kinds (acts : List Action) :
    sleepCount acts = (actionKinds acts).countP isSleepKind := by
  induction acts with
  | nil => rfl
  | cons a l ih =>
    rw [sleepCount_cons, actionKinds_cons, kindSleeps_cons, ih]
    cases a <;> rfl

theorem countSleep_agentsKinds (fails : Nat → Nat → Bool) (t : Nat) :
    ∀ (l : List AgentState) (idx : Nat),
      (agentsKinds fails t idx l).countP isSleepKind = (agentsPairs fails t idx l).length := by
  intro l
  induction l with
  | nil => intro idx; rfl
  | cons a rest ih =>
    intro idx
    cases hf : fails t idx with
    | false =>
      rw [agentsKinds_cons_false fails t idx a rest hf,
        agentsPairs_cons_false fails t idx a rest hf, List.countP_append, ih]
      simp [List.countP_cons, List.countP_nil, isSleepKind, Nat.add_comm]
    | true =>
      rw [agentsKinds_cons_true fails t idx a rest hf,
        agentsPairs_cons_true fails t idx a rest hf, List.countP_append, ih]
      simp [List.countP_cons, List.countP_nil, isSleepKind]

theorem countSleep_debateKinds (fails : Nat → Nat → Bool) (agents : List AgentState) :
    ∀ maxTurns : Nat,
      (debateKinds fails agents maxTurns).countP isSleepKind =
        (debatePairs fails agents maxTurns).length := by
  intro maxTurns
  induction maxTurns with
  | zero => rfl
  | succ n ih =>
    show (turnsConcat (fun t => agentsKinds fails t 0 agents) n
        ++ agentsKinds fails n 0 agents).countP isSleepKind =
      (turnsConcat (fun t => agentsPairs fails t 0 agents) n
        ++ agentsPairs fails n 0 agents).length
    rw [List.countP_append, List.length_append, countSleep_agentsKinds]
    show (debateKinds fails agents n).countP isSleepKind
        + (agentsPairs fails n 0 agents).length =
      (debatePairs fails agents n).length + (agentsPairs fails n 0 agents).length
    rw [ih]

/-! The claims. -/

/-- C1: in a debate run with exactly two participants and maxTurns = 3 in
which every generation call succeeds, the engine emits exactly 6 turn events,
alternating the first participant then the second within each turn, with turn
indices 0,0,1,1,2,2 and non-decreasing timestamps. -/
theorem c1_two_participants_three_turns (gen : GenOracle) (dur : Nat → Nat → Nat)
    (sid : Nat) (topic : String) (a1 a2 : AgentState)
    (hgen : ∀ t i p s temp mt, (gen t i p s temp mt).isOk = true) :
    ((emittedEvents (run_turn_based_debate gen dur sid topic [a1, a2] 3
        initialRunState).actions).length = 6)
    ∧ ((emittedEvents (run_turn_based_debate gen dur sid topic [a1, a2] 3
        initialRunState).actions).map evPair =
        [(0, a1.agent_id), (0, a2.agent_id), (1, a1.agent_id), (1, a2.agent_id),
         (2, a1.agent_id), (2, a2.agent_id)])
    ∧ List.Pairwise (fun x y => x ≤ y)
        ((emittedEvents (run_turn_based_debate gen dur sid topic [a1, a2] 3
          initialRunState).actions).map (fun e => e.timestamp)) := by
  have hgen' : ∀ t i p s temp mt, (gen t i p s temp mt).isOk = !((fun _ _ => false) t i) := by
    intro t i p s temp mt
    simp [hgen]
  have hem := run_emitted gen dur sid topic [a1, a2] 3 initialRunState rfl
  obtain ⟨h1, _h2, _h3⟩ := run_debate_spec gen dur sid topic (fun _ _ => false) hgen'
    [a1, a2] 3 initialRunState
  have hts := run_tsBounded gen dur sid topic [a1, a2] 3 initialRunState
    ⟨by simp [initialRunState], by simp [initialRunState]⟩
  have hmap : (run_turn_based_debate gen dur sid topic [a1, a2] 3
      initialRunState).messages.map evPair =
      [(0, a1.agent_id), (0, a2.agent_id), (1, a1.agent_id), (1, a2.agent_id),
       (2, a1.agent_id), (2, a2.agent_id)] := by
    rw [h1]
    simp [initialRunState, debatePairs, turnsConcat, agentsPairs]
  rw [hem]
  refine ⟨?_, hmap, hts.1⟩
  have hl := congrArg List.length hmap
  simpa using hl

/-- C1 witness: the concrete all-success two-agent run with three turns. -/
theorem c1_two_participants_three_turns_witness :
    ((emittedEvents (run_turn_based_debate genAllOk durOne 1 "T" [wAgentA, wAgentB] 3
        initialRunState).actions).length = 6)
    ∧ ((emittedEvents (run_turn_based_debate genAllOk durOne 1 "T" [wAgentA, wAgentB] 3
        initialRunState).actions).map evPair =
        [(0, 1), (0, 2), (1, 1), (1, 2), (2, 1), (2, 2)])
    ∧ List.Pairwise (fun x y => x ≤ y)
        ((emittedEvents (run_turn_based_debate genAllOk durOne 1 "T" [wAgentA, wAgentB] 3
          initialRunState).actions).map (fun e => e.timestamp)) :=
  c1_two_participants_three_turns genAllOk durOne 1 "T" wAgentA wAgentB
    (fun _ _ _ _ _ _ => rfl)

/-- C2: if exactly one participant's generation call fails (at turn t0,
participant position i0) and every other call succeeds, no record is appended,
persisted or emitted for the failed step only, while every step of every turn
is still attempted in order: a single failure never aborts the run. -/
theorem c2_single_failure_is_isolated (gen : GenOracle) (dur : Nat → Nat → Nat)
    (sid : Nat) (topic : String) (agents : List AgentState) (maxTurns t0 i0 : Nat)
    (hgen : ∀ t i p s temp mt, (gen t i p s temp mt).isOk = !(t == t0 && i == i0)) :
    (genCallPairs (run_turn_based_debate gen dur sid topic agents maxTurns
        initialRunState).actions = debateCallPairs agents maxTurns)
    ∧ ((run_turn_based_debate gen dur sid topic agents maxTurns
        initialRunState).messages.map evPair =
        debatePairs (fun t i => t == t0 && i == i0) agents maxTurns)
    ∧ ((run_turn_based_debate gen dur sid topic agents maxTurns
        initialRunState).dbMessages.map dbPair =
        debatePairs (fun t i => t == t0 && i == i0) agents maxTurns)
    ∧ ((emittedEvents (run_turn_based_debate gen dur sid topic agents maxTurns
        initialRunState).actions).map evPair =
        debatePairs (fun t i => t == t0 && i == i0) agents maxTurns) := by
  obtain ⟨h1, h2, h3⟩ := run_debate_spec gen dur sid topic (fun t i => t == t0 && i == i0)
    hgen agents maxTurns initialRunState
  have hem := run_emitted gen dur sid topic agents maxTurns initialRunState rfl
  refine ⟨?_, ?_, ?_, ?_⟩
  · rw [genCallPairs_eq_kinds, h3]
    show kindCallPairs ([] ++ debateKinds (fun t i => t == t0 && i == i0) agents maxTurns) =
      debateCallPairs agents maxTurns
    rw [List.nil_append, kindCallPairs_debateKinds]
  · simpa [initialRunState] using h1
  · simpa [initialRunState] using h2
  · rw [hem]
    simpa [initialRunState] using h1

/-- C2 witness: two agents, three turns, the second participant failing on
turn 1. -/
theorem c2_single_failure_is_isolated_witness :
    (genCallPairs (run_turn_based_debate genFailTurn1Second durOne 1 "T" [wAgentA, wAgentB] 3
        initialRunState).actions = debateCallPairs [wAgentA, wAgentB] 3)
    ∧ ((run_turn_based_debate genFailTurn1Second durOne 1 "T" [wAgentA, wAgentB] 3
        initialRunState).messages.map evPair =
        debatePairs (fun t i => t == 1 && i == 1) [wAgentA, wAgentB] 3)
    ∧ ((run_turn_based_debate genFailTurn1Second durOne 1 "T" [wAgentA, wAgentB] 3
        initialRunState).dbMessages.map dbPair =
        debatePairs (fun t i => t == 1 && i == 1) [wAgentA, wAgentB] 3)
    ∧ ((emittedEvents (run_turn_based_debate genFailTurn1Second durOne 1 "T" [wAgentA, wAgentB] 3
        initialRunState).actions).map evPair =
        debatePairs (fun t i => t == 1 && i == 1) [wAgentA, wAgentB] 3) :=
  c2_single_failure_is_isolated genFailTurn1Second durOne 1 "T" [wAgentA, wAgentB] 3 1 1
    (by
      intro t i p s temp mt
      cases h : (t == 1 && i == 1) <;> simp [genFailTurn1Second, h, Except.isOk, Except.toBool])

/-- C5 counterexample: two participants, one turn, the first generation call
fails: two generation steps happen but only one pause is inserted — the failed
step is followed by no pause, refuting a pause after every step regardless of
outcome. -/
theorem c5_counterexample :
    sleepCount (run_turn_based_debate genFailFirst durOne 1 "T" [wAgentA, wAgentB] 1
        initialRunState).actions = 1
    ∧ genCallPairs (run_turn_based_debate genFailFirst durOne 1 "T" [wAgentA, wAgentB] 1
        initialRunState).actions = [(0, 0), (0, 1)]
    ∧ actionKinds (run_turn_based_debate genFailFirst durOne 1 "T" [wAgentA, wAgentB] 1
        initialRunState).actions =
        [.genCall 0 0, .genCall 0 1, .persist, .emit, .sleep 500] := by
  refine ⟨?_, ?_, ?_⟩ <;> rfl

/-- C5 amended: the fixed ~500 ms pause follows every successful participant
generation step, and only those — a failed step's `continue` skips the pause,
so the pauses count the successful steps, not all steps. -/
theorem c5_pause_follows_successful_steps (gen : GenOracle) (dur : Nat → Nat → Nat)
    (sid : Nat) (topic : String) (agents : List AgentState) (maxTurns : Nat)
    (fails : Nat → Nat → Bool)
    (hgen : ∀ t i p s temp mt, (gen t i p s temp mt).isOk = !(fails t i)) :
    (actionKinds (run_turn_based_debate gen dur sid topic agents maxTurns
        initialRunState).actions = debateKinds fails agents maxTurns)
    ∧ (sleepCount (run_turn_based_debate gen dur sid topic agents maxTurns
        initialRunState).actions =
        (emittedEvents (run_turn_based_debate gen dur sid topic agents maxTurns
          initialRunState).actions).length) := by
  obtain ⟨h1, _h2, h3⟩ := run_debate_spec gen dur sid topic fails hgen agents maxTurns
    initialRunState
  have hem := run_emitted gen dur sid topic agents maxTurns initialRunState rfl
  have hkinds : actionKinds (run_turn_based_debate gen dur sid topic agents maxTurns
      initialRunState).actions = debateKinds fails agents maxTurns := by
    rw [h3]
    rfl
  refine ⟨hkinds, ?_⟩
  rw [sleepCount_eq_kinds, hkinds, countSleep_debateKinds, hem]
  have hl := congrArg List.length h1
  simpa [initialRunState] using hl.symm

/-- C5 witness for the amended statement: two agents, one turn, first call
failing. -/
theorem c5_pause_follows_successful_steps_witness :
    (actionKinds (run_turn_based_debate genFailFirst durOne 1 "T" [wAgentA, wAgentB] 1
        initialRunState).actions =
        debateKinds (fun t i => t == 0 && i == 0) [wAgentA, wAgentB] 1)
    ∧ (sleepCount (run_turn_based_debate genFailFirst durOne 1 "T" [wAgentA, wAgentB] 1
        initialRunState).actions =
        (emittedEvents (run_turn_based_debate genFailFirst durOne 1 "T" [wAgentA, wAgentB] 1
          initialRunState).actions).length) :=
  c5_pause_follows_successful_steps genFailFirst durOne 1 "T" [wAgentA, wAgentB] 1
    (fun t i => t == 0 && i == 0)
    (by
      intro t i p s temp mt
      cases h : (t == 0 && i == 0) <;> simp [genFailFirst, h, Except.isOk, Except.toBool])

/-- C6: requesting the moderated or free_form format produces a run identical
to the turn_based round-robin run: the other formats alias to turn-based
rather than being rejected. -/
theorem c6_formats_alias (db : Db) (gen : GenOracle) (dur : Nat → Nat → Nat)
    (sid : Nat) (ids : List Nat) (topic : String) (maxTurns : Nat) :
    orchestrator_start_debate db gen dur sid ids topic maxTurns "moderated" =
      orchestrator_start_debate db gen dur sid ids topic maxTurns "turn_based"
    ∧ orchestrator_start_debate db gen dur sid ids topic maxTurns "free_form" =
      orchestrator_start_debate db gen dur sid ids topic maxTurns "turn_based" := by
  constructor <;>
  · unfold orchestrator_start_debate
    simp [debateFormatOfString]

/-! Path lemmas for the orchestrator. -/

theorem orchestrator_too_few (db : Db) (gen : GenOracle) (dur : Nat → Nat → Nat)
    (sid : Nat) (ids : List Nat) (topic : String) (maxTurns : Nat) (fmtStr : String)
    (h : (db.agents.filter (fun a => ids.contains a.id)).length < 2) :
    orchestrator_start_debate db gen dur sid ids topic maxTurns fmtStr =
      ⟨[], db, [], some "At least 2 agents required for a debate"⟩ := by
  unfold orchestrator_start_debate
  rw [if_pos h]

theorem orchestrator_build_error_eq (db : Db) (gen : GenOracle) (dur : Nat → Nat → Nat)
    (sid : Nat) (ids : List Nat) (topic : String) (maxTurns : Nat) (fmtStr : String)
    (a0 : Agent) (rest : List Agent) (e : String)
    (hfilter : db.agents.filter (fun a => ids.contains a.id) = a0 :: rest)
    (hlen : ¬(db.agents.filter (fun a => ids.contains a.id)).length < 2)
    (hbuild : buildAgentStates (buildUserContext a0.user_profile topic) (a0 :: rest) =
      .error e) :
    orchestrator_start_debate db gen dur sid ids topic maxTurns fmtStr =
      ⟨[], db, [], some e⟩ := by
  rw [hfilter] at hlen
  unfold orchestrator_start_debate
  rw [hfilter, if_neg hlen]
  dsimp only
  rw [hbuild]

theorem orchestrator_bad_format_eq (db : Db) (gen : GenOracle) (dur : Nat → Nat → Nat)
    (sid : Nat) (ids : List Nat) (topic : String) (maxTurns : Nat) (fmtStr : String)
    (a0 : Agent) (rest : List Agent) (sts : List AgentState)
    (hfilter : db.agents.filter (fun a => ids.contains a.id) = a0 :: rest)
    (hlen : ¬(db.agents.filter (fun a => ids.contains a.id)).length < 2)
    (hbuild : buildAgentStates (buildUserContext a0.user_profile topic) (a0 :: rest) = .ok sts)
    (hfmt : debateFormatOfString fmtStr = none) :
    orchestrator_start_debate db gen dur sid ids topic maxTurns fmtStr =
      ⟨[], db, [], some (fmtStr ++ " is not a valid DebateFormat")⟩ := by
  rw [hfilter] at hlen
  unfold orchestrator_start_debate
  rw [hfilter, if_neg hlen]
  dsimp only
  rw [hbuild]
  dsimp only
  rw [hfmt]

theorem orchestrator_main_eq (db : Db) (gen : GenOracle) (dur : Nat → Nat → Nat)
    (sid : Nat) (ids : List Nat) (topic : String) (maxTurns : Nat) (fmtStr : String)
    (a0 : Agent) (rest : List Agent) (sts : List AgentState) (fmt : DebateFormat)
    (hfilter : db.agents.filter (fun a => ids.contains a.id) = a0 :: rest)
    (hlen : ¬(db.agents.filter (fun a => ids.contains a.id)).length < 2)
    (hbuild : buildAgentStates (buildUserContext a0.user_profile topic) (a0 :: rest) = .ok sts)
    (hfmt : debateFormatOfString fmtStr = some fmt) :
    orchestrator_start_debate db gen dur sid ids topic maxTurns fmtStr =
      orchestrator_run db gen dur sid topic maxTurns sts := by
  rw [hfilter] at hlen
  unfold orchestrator_start_debate
  rw [hfilter, if_neg hlen]
  dsimp only
  rw [hbuild]
  dsimp only
  rw [hfmt]
  dsimp only
  split <;> rfl

theorem orchestrator_run_events (db : Db) (gen : GenOracle) (dur : Nat → Nat → Nat)
    (sid : Nat) (topic : String) (maxTurns : Nat) (sts : List AgentState) :
    (orchestrator_run db gen dur sid topic maxTurns sts).events =
      (run_turn_based_debate gen dur sid topic sts maxTurns initialRunState).messages := rfl

theorem orchestrator_run_actions (db : Db) (gen : GenOracle) (dur : Nat → Nat → Nat)
    (sid : Nat) (topic : String) (maxTurns : Nat) (sts : List AgentState) :
    (orchestrator_run db gen dur sid topic maxTurns sts).actions =
      (if (db.sessions.find? (fun s => s.id == sid)).isSome
        then [Action.setStatus sid "active"] else [])
      ++ (run_turn_based_debate gen dur sid topic sts maxTurns initialRunState).actions
      ++ (if (db.sessions.find? (fun s => s.id == sid)).isSome
        then [Action.setStatus sid "completed"] else []) := rfl

theorem orchestrator_run_err (db : Db) (gen : GenOracle) (dur : Nat → Nat → Nat)
    (sid : Nat) (topic : String) (maxTurns : Nat) (sts : List AgentState) :
    (orchestrator_run db gen dur sid topic maxTurns sts).err = none := rfl

theorem orchestrator_error_path (db : Db) (gen : GenOracle) (dur : Nat → Nat → Nat)
    (sid : Nat) (ids : List Nat) (topic : String) (maxTurns : Nat) (fmtStr : String)
    (herr : (orchestrator_start_debate db gen dur sid ids topic maxTurns fmtStr).err.isSome) :
    (orchestrator_start_debate db gen dur sid ids topic maxTurns fmtStr).events = []
    ∧ (orchestrator_start_debate db gen dur sid ids topic maxTurns fmtStr).db = db
    ∧ (orchestrator_start_debate db gen dur sid ids topic maxTurns fmtStr).actions = [] := by
  by_cases hlen : (db.agents.filter (fun a => ids.contains a.id)).length < 2
  · rw [orchestrator_too_few db gen dur sid ids topic maxTurns fmtStr hlen]
    exact ⟨rfl, rfl, rfl⟩
  · cases hfilter : db.agents.filter (fun a => ids.contains a.id) with
    | nil =>
      exfalso
      apply hlen
      rw [hfilter]
      simp
    | cons a0 rest =>
      cases hbuild : buildAgentStates (buildUserContext a0.user_profile topic) (a0 :: rest) with
      | error e =>
        rw [orchestrator_build_error_eq db gen dur sid ids topic maxTurns fmtStr
          a0 rest e hfilter hlen hbuild]
        exact ⟨rfl, rfl, rfl⟩
      | ok sts =>
        cases hfmt : debateFormatOfString fmtStr with
        | none =>
          rw [orchestrator_bad_format_eq db gen dur sid ids topic maxTurns fmtStr
            a0 rest sts hfilter hlen hbuild hfmt]
          exact ⟨rfl, rfl, rfl⟩
        | some fmt =>
          exfalso
          rw [orchestrator_main_eq db gen dur sid ids topic maxTurns fmtStr
            a0 rest sts fmt hfilter hlen hbuild hfmt, orchestrator_run_err] at herr
          simp at herr

theorem buildAgentStates_ids (ctx : List (String × String)) :
    ∀ (l : List Agent) (sts : List AgentState),
      buildAgentStates ctx l = .ok sts →
      sts.map (fun s => s.agent_id) = l.map (fun a => a.id) := by
  intro l
  induction l with
  | nil =>
    intro sts h
    simp only [buildAgentStates] at h
    cases h
    rfl
  | cons a rest ih =>
    intro sts h
    simp only [buildAgentStates] at h
    cases hp : parse a.system_prompt_raw with
    | error e => rw [hp] at h; cases h
    | ok parsed =>
      rw [hp] at h
      dsimp only at h
      cases hf : format_system_prompt (substitute_variables parsed ctx) with
      | error e => rw [hf] at h; cases h
      | ok formatted =>
        rw [hf] at h
        dsimp only at h
        cases hc : create_client a.model_provider a.model_name with
        | error e => rw [hc] at h; cases h
        | ok u =>
          rw [hc] at h
          dsimp only at h
          cases hr : buildAgentStates ctx rest with
          | error e => rw [hr] at h; cases h
          | ok sts2 =>
            rw [hr] at h
            dsimp only at h
            cases h
            simp [ih sts2 hr]

theorem agentsPairs_false (t : Nat) :
    ∀ (l : List AgentState) (idx : Nat),
      agentsPairs (fun _ _ => false) t idx l = l.map (fun a => (t, a.agent_id)) := by
  intro l
  induction l with
  | nil => intro idx; rfl
  | cons a rest ih =>
    intro idx
    rw [agentsPairs_cons_false _ t idx a rest rfl, ih]
    rfl

theorem turnsConcat_congr {α : Type} (f g : Nat → List α) (h : ∀ t, f t = g t) :
    ∀ n, turnsConcat f n = turnsConcat g n := by
  intro n
  induction n with
  | zero => rfl
  | succ m ih => simp [turnsConcat, ih, h]

/-- C4 counterexample: the agents are stored in the table as [id 1, id 2] and
the run is requested with agent_ids = [2, 1]; the participants act as 1 then
2 — the order the resolution query returns — not in the declaration order of
the supplied agent-id list. -/
theorem c4_counterexample :
    ((orchestrator_start_debate wDb genAllOk durOne 1 [2, 1] "T" 1 "turn_based").events.map
      (fun e => e.agent_id)) = [1, 2]
    ∧ [1, 2] ≠ [2, 1] := by
  constructor
  · decide
  · decide

/-- C4 amended: in every run that starts (no setup error), the participants
act in the order the storage query returns them — the agents-table row order
filtered by membership in the supplied agent-id list — and that same fixed
order is used in every turn of the run. -/
theorem c4_participants_in_table_order (db : Db) (gen : GenOracle) (dur : Nat → Nat → Nat)
    (sid : Nat) (ids : List Nat) (topic : String) (maxTurns : Nat) (fmtStr : String)
    (hgen : ∀ t i p s temp mt, (gen t i p s temp mt).isOk = true)
    (hok : (orchestrator_start_debate db gen dur sid ids topic maxTurns fmtStr).err = none) :
    (orchestrator_start_debate db gen dur sid ids topic maxTurns fmtStr).events.map evPair =
      turnsConcat (fun t => (db.agents.filter (fun a => ids.contains a.id)).map
        (fun a => (t, a.id))) maxTurns := by
  by_cases hlen : (db.agents.filter (fun a => ids.contains a.id)).length < 2
  · rw [orchestrator_too_few db gen dur sid ids topic maxTurns fmtStr hlen] at hok
    simp at hok
  · cases hfilter : db.agents.filter (fun a => ids.contains a.id) with
    | nil =>
      exfalso
      apply hlen
      rw [hfilter]
      simp
    | cons a0 rest =>
      cases hbuild : buildAgentStates (buildUserContext a0.user_profile topic) (a0 :: rest) with
      | error e =>
        rw [orchestrator_build_error_eq db gen dur sid ids topic maxTurns fmtStr
          a0 rest e hfilter hlen hbuild] at hok
        simp at hok
      | ok sts =>
        cases hfmt : debateFormatOfString fmtStr with
        | none =>
          rw [orchestrator_bad_format_eq db gen dur sid ids topic maxTurns fmtStr
            a0 rest sts hfilter hlen hbuild hfmt] at hok
          simp at hok
        | some fmt =>
          rw [orchestrator_main_eq db gen dur sid ids topic maxTurns fmtStr
            a0 rest sts fmt hfilter hlen hbuild hfmt, orchestrator_run_events]
          have hgen' : ∀ t i p s temp mt,
              (gen t i p s temp mt).isOk = !((fun _ _ => false) t i) := by
            intro t i p s temp mt
            simp [hgen]
          obtain ⟨h1, _h2, _h3⟩ := run_debate_spec gen dur sid topic (fun _ _ => false) hgen'
            sts maxTurns initialRunState
          rw [h1]
          have hids := buildAgentStates_ids (buildUserContext a0.user_profile topic)
            (a0 :: rest) sts hbuild
          have hpt : ∀ t : Nat, agentsPairs (fun _ _ => false) t 0 sts =
              (a0 :: rest).map (fun a => (t, a.id)) := by
            intro t
            rw [agentsPairs_false t sts 0]
            have e1 : sts.map (fun s => (t, s.agent_id)) =
                (sts.map (fun s => s.agent_id)).map (fun x => (t, x)) := by
              simp [List.map_map, Function.comp]
            rw [e1, hids]
            simp [List.map_map, Function.comp]
          have hcg := turnsConcat_congr (fun t => agentsPairs (fun _ _ => false) t 0 sts)
            (fun t => (a0 :: rest).map (fun a => (t, a.id))) hpt maxTurns
          simpa [initialRunState, debatePairs] using hcg

/-- C4 amended witness: the concrete run over the two-agent table with
agent_ids = [2, 1]. -/
theorem c4_participants_in_table_order_witness :
    (orchestrator_start_debate wDb genAllOk durOne 1 [2, 1] "T" 1 "turn_based").events.map evPair =
      turnsConcat (fun t => (wDb.agents.filter (fun a => [2, 1].contains a.id)).map
        (fun a => (t, a.id))) 1 :=
  c4_participants_in_table_order wDb genAllOk durOne 1 [2, 1] "T" 1 "turn_based"
    (fun _ _ _ _ _ _ => rfl) rfl

/-- C3: the session status only advances pending → active → completed (the
endpoint writes either nothing or exactly active then completed, never
skipping active); it is written at all only when the session was pending and
at least 2 participants resolved; and when either precondition fails the run
performs no generation call and leaves the session rows unchanged. -/
theorem c3_lifecycle (db : Db) (gen : GenOracle) (dur : Nat → Nat → Nat)
    (sumGen : String → Rat → Nat → Except String String) (sid : Nat) :
    (statusWrites (app_start_debate db gen dur sumGen sid).actions = []
      ∨ statusWrites (app_start_debate db gen dur sumGen sid).actions = ["active", "completed"])
    ∧ (statusWrites (app_start_debate db gen dur sumGen sid).actions ≠ [] →
        foundSessionStatus db sid = some "pending" ∧ 2 ≤ resolvedParticipantCount db sid)
    ∧ ((foundSessionStatus db sid ≠ some "pending" ∨ resolvedParticipantCount db sid < 2) →
        genCallPairs (app_start_debate db gen dur sumGen sid).actions = []
        ∧ (app_start_debate db gen dur sumGen sid).db.sessions = db.sessions) := by
  cases hfind : db.sessions.find? (fun s => s.id == sid) with
  | none =>
    have happ : app_start_debate db gen dur sumGen sid = ⟨[], db, [], some 404⟩ := by
      unfold app_start_debate
      rw [hfind]
    rw [happ]
    refine ⟨Or.inl rfl, ?_, ?_⟩
    · intro hne
      exact absurd rfl hne
    · intro _
      exact ⟨rfl, rfl⟩
  | some session =>
    cases hst : (session.status != "pending") with
    | true =>
      have happ : app_start_debate db gen dur sumGen sid = ⟨[], db, [], some 400⟩ := by
        unfold app_start_debate
        rw [hfind]
        try dsimp only
        simp [hst]
      rw [happ]
      refine ⟨Or.inl rfl, ?_, ?_⟩
      · intro hne
        exact absurd rfl hne
      · intro _
        exact ⟨rfl, rfl⟩
    | false =>
      have hpend : session.status = "pending" := by
        simpa using hst
      cases herr : (orchestrator_start_debate db gen dur sid session.agent_ids session.topic
          session.max_turns session.debate_format).err with
      | some m =>
        obtain ⟨hev, hdb, hact⟩ := orchestrator_error_path db gen dur sid session.agent_ids
          session.topic session.max_turns session.debate_format (by rw [herr]; rfl)
        have happ : app_start_debate db gen dur sumGen sid =
            ⟨[StreamEvent.error m], db, [], none⟩ := by
          unfold app_start_debate
          rw [hfind]
          try dsimp only
          simp only [hst]
          try dsimp only
          rw [herr]
          try dsimp only
          rw [hev, hdb, hact]
          rfl
        rw [happ]
        refine ⟨Or.inl rfl, ?_, ?_⟩
        · intro hne
          exact absurd rfl hne
        · intro _
          exact ⟨rfl, rfl⟩
      | none =>
        by_cases hlen : (db.agents.filter
            (fun a => session.agent_ids.contains a.id)).length < 2
        · rw [orchestrator_too_few db gen dur sid session.agent_ids session.topic
            session.max_turns session.debate_format hlen] at herr
          simp at herr
        · cases hfilter : db.agents.filter (fun a => session.agent_ids.contains a.id) with
          | nil =>
            exfalso
            apply hlen
            rw [hfilter]
            simp
          | cons a0 rest =>
            cases hbuild : buildAgentStates (buildUserContext a0.user_profile session.topic)
                (a0 :: rest) with
            | error e =>
              rw [orchestrator_build_error_eq db gen dur sid session.agent_ids session.topic
                session.max_turns session.debate_format a0 rest e hfilter hlen hbuild] at herr
              simp at herr
            | ok sts =>
              cases hfmt : debateFormatOfString session.debate_format with
              | none =>
                rw [orchestrator_bad_format_eq db gen dur sid session.agent_ids session.topic
                  session.max_turns session.debate_format a0 rest sts hfilter hlen hbuild
                  hfmt] at herr
                simp at herr
              | some fmt =>
                have hmain := orchestrator_main_eq db gen dur sid session.agent_ids
                  session.topic session.max_turns session.debate_format a0 rest sts fmt
                  hfilter hlen hbuild hfmt
                have hfound : (db.sessions.find? (fun s => s.id == sid)).isSome = true := by
                  rw [hfind]
                  rfl
                have hactions : (app_start_debate db gen dur sumGen sid).actions =
                    (orchestrator_run db gen dur sid session.topic
                      session.max_turns sts).actions := by
                  unfold app_start_debate
                  rw [hfind]
                  try dsimp only
                  simp only [hst]
                  try dsimp only
                  rw [hmain, orchestrator_run_err]
                  simp
                have hsw : statusWrites (orchestrator_run db gen dur sid session.topic
                    session.max_turns sts).actions = ["active", "completed"] := by
                  rw [orchestrator_run_actions, hfound, if_pos rfl, if_pos rfl,
                    statusWrites_append, statusWrites_append,
                    run_statusWrites gen dur sid session.topic sts session.max_turns
                      initialRunState]
                  rfl
                refine ⟨Or.inr ?_, ?_, ?_⟩
                · rw [hactions, hsw]
                · intro _
                  constructor
                  · unfold foundSessionStatus
                    rw [hfind]
                    simp [hpend]
                  · have hrc : resolvedParticipantCount db sid =
                        (db.agents.filter (fun a => session.agent_ids.contains a.id)).length := by
                      unfold resolvedParticipantCount
                      rw [hfind]
                    rw [hrc]
                    exact Nat.le_of_not_lt hlen
                · intro hcond
                  exfalso
                  cases hcond with
                  | inl hns =>
                    apply hns
                    unfold foundSessionStatus
                    rw [hfind]
                    simp [hpend]
                  | inr hlt =>
                    apply hlen
                    have hrc : resolvedParticipantCount db sid =
                        (db.agents.filter (fun a => session.agent_ids.contains a.id)).length := by
                      unfold resolvedParticipantCount
                      rw [hfind]
                    omega


theorem tryPlaceholder_shape (cs : List Char) (nm : String) (rem : List Char)
    (h : tryPlaceholder cs = some (nm, rem)) :
    cs = '{' :: '{' :: (nm.data ++ '}' :: '}' :: rem) ∧ nm.data ≠ [] := by
  unfold tryPlaceholder at h
  split at h
  case h_1 c1 c2 rest =>
    split at h
    case isTrue hbr =>
      obtain ⟨hc1, hc2⟩ := hbr
      subst hc1
      subst hc2
      split at h
      case h_1 d1 d2 rem' heq =>
        split at h
        case isTrue hcond =>
          obtain ⟨hd1, hd2, hne, _hstart⟩ := hcond
          subst hd1
          subst hd2
          simp only [Option.some.injEq, Prod.mk.injEq] at h
          obtain ⟨h1, h2⟩ := h
          constructor
          · rw [← h1]
            show '{' :: '{' :: rest =
              '{' :: '{' :: (rest.takeWhile identChar ++ '}' :: '}' :: rem)
            rw [← h2, ← heq, List.takeWhile_append_dropWhile]
          · rw [← h1]
            exact hne
        case isFalse => cases h
      case h_2 => cases h
    case isFalse => cases h
  case h_2 => cases h

theorem tryPlaceholder_length (cs : List Char) (nm : String) (rem : List Char)
    (h : tryPlaceholder cs = some (nm, rem)) : rem.length + 4 ≤ cs.length := by
  obtain ⟨hshape, _⟩ := tryPlaceholder_shape cs nm rem h
  subst hshape
  simp only [List.length_cons, List.length_append]
  omega

theorem matchNamesF_fuel :
    ∀ (f1 : Nat) (cs : List Char) (f2 : Nat), cs.length ≤ f1 → cs.length ≤ f2 →
      matchNamesF f1 cs = matchNamesF f2 cs := by
  intro f1
  induction f1 with
  | zero =>
    intro cs f2 h1 _
    have hnil : cs = [] := List.length_eq_zero.mp (Nat.le_zero.mp h1)
    subst hnil
    cases f2 <;> rfl
  | succ n ih =>
    intro cs f2 h1 h2
    cases cs with
    | nil => cases f2 <;> rfl
    | cons c rest =>
      cases f2 with
      | zero => simp at h2
      | succ m =>
        show (match tryPlaceholder (c :: rest) with
          | some (nm, rem) => nm :: matchNamesF n rem
          | none => matchNamesF n rest) =
          (match tryPlaceholder (c :: rest) with
            | some (nm, rem) => nm :: matchNamesF m rem
            | none => matchNamesF m rest)
        cases htp : tryPlaceholder (c :: rest) with
        | some pr =>
          obtain ⟨nm, rem⟩ := pr
          have hlen := tryPlaceholder_length _ _ _ htp
          simp only [List.length_cons] at h1 h2 hlen
          dsimp only
          rw [ih rem m (by omega) (by omega)]
        | none =>
          simp only [List.length_cons] at h1 h2
          dsimp only
          rw [ih rest m (by omega) (by omega)]

theorem pySubstF_fuel (vars : List (String × String)) :
    ∀ (f1 : Nat) (cs : List Char) (f2 : Nat), cs.length ≤ f1 → cs.length ≤ f2 →
      pySubstF vars f1 cs = pySubstF vars f2 cs := by
  intro f1
  induction f1 with
  | zero =>
    intro cs f2 h1 _
    have hnil : cs = [] := List.length_eq_zero.mp (Nat.le_zero.mp h1)
    subst hnil
    cases f2 <;> rfl
  | succ n ih =>
    intro cs f2 h1 h2
    cases cs with
    | nil => cases f2 <;> rfl
    | cons c rest =>
      cases f2 with
      | zero => simp at h2
      | succ m =>
        show (match tryPlaceholder (c :: rest) with
          | some (nm, rem) =>
              (match vars.lookup nm with
               | some v => v.data
               | none => '{' :: '{' :: (nm.data ++ '}' :: '}' :: [])) ++ pySubstF vars n rem
          | none => c :: pySubstF vars n rest) =
          (match tryPlaceholder (c :: rest) with
            | some (nm, rem) =>
                (match vars.lookup nm with
                 | some v => v.data
                 | none => '{' :: '{' :: (nm.data ++ '}' :: '}' :: [])) ++ pySubstF vars m rem
            | none => c :: pySubstF vars m rest)
        cases htp : tryPlaceholder (c :: rest) with
        | some pr =>
          obtain ⟨nm, rem⟩ := pr
          have hlen := tryPlaceholder_length _ _ _ htp
          simp only [List.length_cons] at h1 h2 hlen
          dsimp only
          rw [ih rem m (by omega) (by omega)]
        | none =>
          simp only [List.length_cons] at h1 h2
          dsimp only
          rw [ih rest m (by omega) (by omega)]

theorem matchNames_cons_some (c : Char) (rest : List Char) (nm : String) (rem : List Char)
    (htp : tryPlaceholder (c :: rest) = some (nm, rem)) :
    matchNames (c :: rest) = nm :: matchNames rem := by
  have hlen := tryPlaceholder_length _ _ _ htp
  simp only [List.length_cons] at hlen
  show matchNamesF (c :: rest).length (c :: rest) = nm :: matchNamesF rem.length rem
  simp only [List.length_cons, matchNamesF, htp]
  congr 1
  exact matchNamesF_fuel rest.length rem rem.length (by omega) (Nat.le_refl _)

theorem matchNames_cons_none (c : Char) (rest : List Char)
    (htp : tryPlaceholder (c :: rest) = none) :
    matchNames (c :: rest) = matchNames rest := by
  show matchNamesF (c :: rest).length (c :: rest) = matchNamesF rest.length rest
  simp only [List.length_cons, matchNamesF, htp]

theorem pySubstF_nobound (vars : List (String × String)) :
    ∀ (fuel : Nat) (cs : List Char), cs.length ≤ fuel →
      (∀ n ∈ matchNames cs, vars.lookup n = none) →
      pySubstF vars fuel cs = cs := by
  intro fuel
  induction fuel with
  | zero =>
    intro cs h1 _
    have hnil : cs = [] := List.length_eq_zero.mp (Nat.le_zero.mp h1)
    subst hnil
    rfl
  | succ m ih =>
    intro cs h1 h2
    cases cs with
    | nil => rfl
    | cons c rest =>
      simp only [List.length_cons] at h1
      cases htp : tryPlaceholder (c :: rest) with
      | some pr =>
        obtain ⟨nm, rem⟩ := pr
        obtain ⟨hshape, _⟩ := tryPlaceholder_shape _ _ _ htp
        have hnames := matchNames_cons_some c rest nm rem htp
        have hlkp : vars.lookup nm = none :=
          h2 nm (by rw [hnames]; exact List.mem_cons_self _ _)
        have hlen := tryPlaceholder_length _ _ _ htp
        simp only [List.length_cons] at hlen
        show (match tryPlaceholder (c :: rest) with
          | some (nm, rem) =>
              (match vars.lookup nm with
               | some v => v.data
               | none => '{' :: '{' :: (nm.data ++ '}' :: '}' :: [])) ++ pySubstF vars m rem
          | none => c :: pySubstF vars m rest) = c :: rest
        rw [htp]
        dsimp only
        rw [hlkp]
        dsimp only
        rw [ih rem (by omega)
          (fun n hn => h2 n (by rw [hnames]; exact List.mem_cons_of_mem _ hn))]
        rw [hshape]
        simp [List.append_assoc]
      | none =>
        show (match tryPlaceholder (c :: rest) with
          | some (nm, rem) =>
              (match vars.lookup nm with
               | some v => v.data
               | none => '{' :: '{' :: (nm.data ++ '}' :: '}' :: [])) ++ pySubstF vars m rem
          | none => c :: pySubstF vars m rest) = c :: rest
        rw [htp]
        dsimp only
        congr 1
        exact ih rest (by omega)
          (fun n hn => h2 n (by rw [matchNames_cons_none c rest htp]; exact hn))

theorem substituteString_nobound (vars : List (String × String)) (t : String)
    (h : strNoBound vars t = true) : substituteString vars t = t := by
  unfold substituteString
  rw [pySubstF_nobound vars t.data.length t.data (Nat.le_refl _) ?names]
  case names =>
    intro n hn
    unfold strNoBound at h
    have hp := List.all_eq_true.mp h n hn
    simpa using hp

mutual
theorem deepSubstitute_nobound (vars : List (String × String)) :
    ∀ (v : Yval), noBoundY vars v = true → deepSubstitute vars v = v
  | .s t, h => congrArg Yval.s (substituteString_nobound vars t h)
  | .i _, _ => rfl
  | .b _, _ => rfl
  | .null, _ => rfl
  | .arr vs, h => congrArg Yval.arr (deepSubstituteArr_nobound vars vs h)
  | .map kvs, h => congrArg Yval.map (deepSubstituteKvs_nobound vars kvs h)

theorem deepSubstituteArr_nobound (vars : List (String × String)) :
    ∀ (vs : List Yval), noBoundYArr vars vs = true → deepSubstituteArr vars vs = vs
  | [], _ => rfl
  | v :: vs, h => by
      have hh : noBoundY vars v = true ∧ noBoundYArr vars vs = true := by
        simp only [noBoundYArr, Bool.and_eq_true] at h
        exact h
      rw [deepSubstituteArr, deepSubstitute_nobound vars v hh.1,
        deepSubstituteArr_nobound vars vs hh.2]

theorem deepSubstituteKvs_nobound (vars : List (String × String)) :
    ∀ (kvs : List (String × Yval)), noBoundYKvs vars kvs = true →
      deepSubstituteKvs vars kvs = kvs
  | [], _ => rfl
  | (k, v) :: kvs, h => by
      have hh : noBoundY vars v = true ∧ noBoundYKvs vars kvs = true := by
        simp only [noBoundYKvs, Bool.and_eq_true] at h
        exact h
      rw [deepSubstituteKvs, deepSubstitute_nobound vars v hh.1,
        deepSubstituteKvs_nobound vars kvs hh.2]
end

/-- C7 counterexample: the template parses, and with the context binding a to
the text of placeholder b and b to "x", one substitution turns the system
prompt placeholder a into the placeholder b, while a second substitution turns
it into "x": substituting twice differs from substituting once. -/
theorem c7_counterexample :
    parse (Except.ok c7Raw) = Except.ok c7Parsed
    ∧ agentField (substitute_variables c7Parsed c7Ctx) "system_prompt" =
        some (.s "\x7b\x7bb\x7d\x7d")
    ∧ agentField (substitute_variables (substitute_variables c7Parsed c7Ctx) c7Ctx)
        "system_prompt" = some (.s "x")
    ∧ substitute_variables (substitute_variables c7Parsed c7Ctx) c7Ctx ≠
        substitute_variables c7Parsed c7Ctx := by
  refine ⟨rfl, rfl, rfl, ?_⟩
  intro h
  have h2 : (some (Yval.s "x") : Option Yval) = some (Yval.s "\x7b\x7bb\x7d\x7d") :=
    congrArg (fun v => agentField v "system_prompt") h
  simp at h2

/-- C7 amended: for a template that parses successfully, substitution with the
same context is idempotent provided the once-substituted template contains no
placeholder whose name the context binds — a second pass can differ only when
a substituted value introduces or completes a bound placeholder. -/
theorem c7_substitution_idempotent_without_bound_placeholder (raw : Except String Yval)
    (t : Yval) (vars : List (String × String))
    (_hparse : parse raw = Except.ok t)
    (hnb : noBoundY vars (substitute_variables t vars) = true) :
    substitute_variables (substitute_variables t vars) vars = substitute_variables t vars :=
  deepSubstitute_nobound vars _ hnb

/-- C7 amended witness: the parsed template substituted with a ↦ "X" is stable
under a second substitution. -/
theorem c7_substitution_idempotent_without_bound_placeholder_witness :
    substitute_variables (substitute_variables c7Parsed c7WCtx) c7WCtx =
      substitute_variables c7Parsed c7WCtx :=
  c7_substitution_idempotent_without_bound_placeholder (Except.ok c7Raw) c7Parsed c7WCtx
    rfl rfl

/-- C3 witness: the endpoint run on the pending two-agent session. -/
theorem c3_lifecycle_witness :
    (statusWrites (app_start_debate wDb genAllOk durOne sumGenW 1).actions = []
      ∨ statusWrites (app_start_debate wDb genAllOk durOne sumGenW 1).actions =
          ["active", "completed"])
    ∧ (statusWrites (app_start_debate wDb genAllOk durOne sumGenW 1).actions ≠ [] →
        foundSessionStatus wDb 1 = some "pending" ∧ 2 ≤ resolvedParticipantCount wDb 1)
    ∧ ((foundSessionStatus wDb 1 ≠ some "pending" ∨ resolvedParticipantCount wDb 1 < 2) →
        genCallPairs (app_start_debate wDb genAllOk durOne sumGenW 1).actions = []
        ∧ (app_start_debate wDb genAllOk durOne sumGenW 1).db.sessions = wDb.sessions) :=
  c3_lifecycle wDb genAllOk durOne sumGenW 1

/-- C8 counterexample: for the valid mapping whose agent section is the empty
mapping — a template lacking agent.role — validate reports the missing name
field first: the returned message does not name agent.role. -/
theorem c8_counterexample :
    validate_prompt (Except.ok (Yval.map [("agent", Yval.map [])])) =
      (false, some "Unexpected parsing error: Missing required field: agent.name")
    ∧ strContains "Unexpected parsing error: Missing required field: agent.name"
        "agent.role" = false :=
  ⟨rfl, rfl⟩

/-- C8 amended: validate never raises — it returns (true, none) exactly on the
inputs parse accepts and (false, message) on the ones it rejects — and for a
valid mapping whose agent section is a mapping that contains name but lacks
role, the returned message names the missing field agent.role. -/
theorem c8_validate_total_and_names_role (raw : Except String Yval)
    (kvs akvs : List (String × Yval))
    (hagent : kvs.lookup "agent" = some (Yval.map akvs))
    (hname : (akvs.lookup "name").isSome = true)
    (hrole : akvs.lookup "role" = none) :
    (validate_prompt raw =
      match parse raw with
      | .ok _ => (true, none)
      | .error m => (false, some m))
    ∧ validate_prompt (Except.ok (Yval.map kvs)) =
        (false, some "Unexpected parsing error: Missing required field: agent.role")
    ∧ strContains "Unexpected parsing error: Missing required field: agent.role"
        "agent.role" = true := by
  refine ⟨?_, ?_, rfl⟩
  · cases hp : parse raw <;> simp [validate_prompt, hp]
  · have hcr : checkRequired (Yval.map akvs) requiredFields =
        .error "Missing required field: agent.role" := by
      simp only [requiredFields, checkRequired, pyContains, hname, hrole,
        Option.isSome_none]
      rfl
    unfold validate_prompt parse
    dsimp only
    unfold parseBody
    dsimp only
    rw [hagent]
    dsimp only
    rw [hcr]
    rfl

/-- C8 amended witness: the valid mapping whose agent section has name but no
role. -/
theorem c8_validate_total_and_names_role_witness :
    (validate_prompt (Except.ok (Yval.map [("agent", Yval.map [("name", Yval.s "A")])])) =
      match parse (Except.ok (Yval.map [("agent", Yval.map [("name", Yval.s "A")])])) with
      | .ok _ => (true, none)
      | .error m => (false, some m))
    ∧ validate_prompt (Except.ok (Yval.map [("agent", Yval.map [("name", Yval.s "A")])])) =
        (false, some "Unexpected parsing error: Missing required field: agent.role")
    ∧ strContains "Unexpected parsing error: Missing required field: agent.role"
        "agent.role" = true :=
  c8_validate_total_and_names_role
    (Except.ok (Yval.map [("agent", Yval.map [("name", Yval.s "A")])]))
    [("agent", Yval.map [("name", Yval.s "A")])] [("name", Yval.s "A")] rfl rfl rfl

/-- C9: for a session that exists and whose persisted transcript is empty, the
summary generator returns the canned no-discussion payload, performs zero
generation calls, and leaves storage unchanged. -/
theorem c9_empty_transcript_canned (db : Db)
    (sumGen : String → Rat → Nat → Except String String) (sid : Nat) (session : SessionRow)
    (hfound : db.sessions.find? (fun s => s.id == sid) = some session)
    (hempty : db.messages.filter (fun m => m.debate_session_id == sid) = []) :
    generate_debate_summary db sumGen sid =
      (some [("summary", Yval.s "No discussion took place."), ("insights", Yval.arr [])],
       db, 0) := by
  unfold generate_debate_summary
  rw [hfound]
  dsimp only
  rw [hempty]
  rfl

/-- C9 witness: an existing session with no persisted messages. -/
theorem c9_empty_transcript_canned_witness :
    generate_debate_summary wDb sumGenW 1 =
      (some [("summary", Yval.s "No discussion took place."), ("insights", Yval.arr [])],
       wDb, 0) :=
  c9_empty_transcript_canned wDb sumGenW 1 wSession rfl rfl

/-- C10: the participant resolution is a membership filter over the agents
table, so duplicate ids in the request contribute at most one participant each
(resolution is unchanged by deduplicating the id list); and when fewer than 2
requested ids resolve to rows, the run is rejected with the at-least-2-agents
error before anything happens. -/
theorem c10_distinct_ids_resolution (db : Db) (gen : GenOracle) (dur : Nat → Nat → Nat)
    (sid : Nat) (ids : List Nat) (topic : String) (maxTurns : Nat) (fmtStr : String)
    (hnodup : (db.agents.map (fun a => a.id)).Nodup)
    (hfew : ((ids.dedup).filter (fun i =>
      (db.agents.map (fun a => a.id)).contains i)).length < 2) :
    (db.agents.filter (fun a => ids.contains a.id) =
      db.agents.filter (fun a => ids.dedup.contains a.id))
    ∧ orchestrator_start_debate db gen dur sid ids topic maxTurns fmtStr =
        ⟨[], db, [], some "At least 2 agents required for a debate"⟩ := by
  have hkey : (db.agents.filter (fun a => ids.contains a.id)).length < 2 := by
    have hmapped : (db.agents.filter (fun a => ids.contains a.id)).length =
        ((db.agents.map (fun a => a.id)).filter (fun i => ids.contains i)).length := by
      rw [List.filter_map, List.length_map]
      rfl
    have hsub : ((db.agents.map (fun a => a.id)).filter (fun i => ids.contains i)) ⊆
        ((ids.dedup).filter (fun i => (db.agents.map (fun a => a.id)).contains i)) := by
      intro x hx
      simp only [List.mem_filter] at hx ⊢
      constructor
      · rw [List.mem_dedup]
        simpa using hx.2
      · simpa using hx.1
    have hnd : ((db.agents.map (fun a => a.id)).filter (fun i => ids.contains i)).Nodup :=
      List.Nodup.filter _ hnodup
    have hle := (hnd.subperm hsub).length_le
    omega
  exact ⟨List.filter_congr (fun a _ => by simp [List.mem_dedup]),
    orchestrator_too_few db gen dur sid ids topic maxTurns fmtStr hkey⟩

/-- C10 witness: a table of two agents and a request naming agent 1 twice — a
two-element list with a single distinct existing id — is rejected. -/
theorem c10_distinct_ids_resolution_witness :
    (wDb.agents.filter (fun a => [1, 1].contains a.id) =
      wDb.agents.filter (fun a => [1, 1].dedup.contains a.id))
    ∧ orchestrator_start_debate wDb genAllOk durOne 1 [1, 1] "T" 1 "turn_based" =
        ⟨[], wDb, [], some "At least 2 agents required for a debate"⟩ :=
  c10_distinct_ids_resolution wDb genAllOk durOne 1 [1, 1] "T" 1 "turn_based"
    (by decide) (by decide)

end Debate
